import Mathlib

/-!
Verification development for the Ruki robot-program conversion engine.

The Lean definitions below are a shallow embedding of the Python sources:
* `src/assets/emitters/universal_robots.py` (pose algebra, script parsing
  heuristic, format emitters, model detection),
* `src/Ruki_C.py` (duplicate converters and detection helpers),
* `src/postprocessor/Ruki_E.py` (the IR builder / post-processor).

Python floats are modelled as real numbers (`ℝ`); exact float rounding is
not modelled, so numeric claims are settled over the reals.  Python dicts
with a fixed key set are modelled as structures; `dict.get(k, d)` becomes
`Option.getD`.  File writing is modelled by returning the would-be file
content/path as data.
-/

namespace Ruki

open Real
open scoped Classical

/-- `deg2rad` from `universal_robots.py` line 10. -/
noncomputable def deg2rad (d : ℝ) : ℝ := d * Real.pi / 180

/-- `rad2deg` from `universal_robots.py` line 11. -/
noncomputable def rad2deg (r : ℝ) : ℝ := r * 180 / Real.pi

/-- The 3×3 rotation submatrix `R` that `get_cartesian_pose` extracts from a
4×4 pose matrix (`universal_robots.py` line 28), as a record of its nine
entries. -/
structure Rot3 where
  r00 : ℝ
  r01 : ℝ
  r02 : ℝ
  r10 : ℝ
  r11 : ℝ
  r12 : ℝ
  r20 : ℝ
  r21 : ℝ
  r22 : ℝ

/-- The identity rotation. -/
def Rot3.one : Rot3 := ⟨1, 0, 0, 0, 1, 0, 0, 0, 1⟩

/-- The rotation-vector (axis-angle) extraction of `get_cartesian_pose`
(`universal_robots.py` lines 29–41, identically `Ruki_C.py` lines 354–366):
trace, clamp, `acos`, then three branches (identity, 180° singularity,
generic Rodrigues inverse). -/
noncomputable def extractRot (R : Rot3) : ℝ × ℝ × ℝ :=
  let trace := R.r00 + R.r11 + R.r22
  let cos_a := max (-1) (min 1 ((trace - 1) / 2))
  let angle := Real.arccos cos_a
  if |angle| < 1e-10 then (0, 0, 0)
  else if |angle - Real.pi| < 1e-10 then
    let rx := Real.sqrt ((R.r00 + 1) / 2) * Real.pi
    let ry := Real.sqrt ((R.r11 + 1) / 2) * Real.pi
    let rz := Real.sqrt ((R.r22 + 1) / 2) * Real.pi
    let ry' := if R.r01 < 0 then -ry else ry
    let rz' := if R.r02 < 0 then -rz else rz
    (rx, ry', rz')
  else
    let k := angle / (2 * Real.sin angle)
    (k * (R.r21 - R.r12), k * (R.r02 - R.r20), k * (R.r10 - R.r01))

/-- The part of a Ruki target that `get_cartesian_pose` reads: the optional
`pose_matrix` (4×4 list of lists) and the optional `pose` (xyzrpw list).
`none` models a missing/`null`/falsy value (Python `target.get(...)`
truthiness). -/
structure PoseTarget where
  pose_matrix : Option (List (List ℝ)) := none
  pose : Option (List ℝ) := none

/-- Matrix entry `m[i][j]`.  The Python code indexes unconditionally (an
out-of-range index would raise); we totalize with a `0` default, which the
claims never exercise because they only concern well-formed 4×4 matrices. -/
def mval (m : List (List ℝ)) (i j : Nat) : ℝ := (m.getD i []).getD j 0

/-- The rotation submatrix `R = [[m[i][j] for j in range(3)] for i in range(3)]`
(`universal_robots.py` line 28). -/
def rotOf (m : List (List ℝ)) : Rot3 :=
  ⟨mval m 0 0, mval m 0 1, mval m 0 2,
   mval m 1 0, mval m 1 1, mval m 1 2,
   mval m 2 0, mval m 2 1, mval m 2 2⟩

/-- The `target.get('pose')` fallback branch of `get_cartesian_pose`
(`universal_robots.py` lines 43–46): mm→m for the position, deg→rad for the
rotation.  The Python guard `target.get('pose') and len(...) >= 6` is the
`6 ≤ p.length` test (a list of length ≥ 6 is truthy). -/
noncomputable def poseFromXyzrpw (t : PoseTarget) : Option (List ℝ) :=
  match t.pose with
  | some p =>
    if 6 ≤ p.length then
      some [p.getD 0 0 / 1000, p.getD 1 0 / 1000, p.getD 2 0 / 1000,
            deg2rad (p.getD 3 0), deg2rad (p.getD 4 0), deg2rad (p.getD 5 0)]
    else none
  | none => none

/-- `get_cartesian_pose` (`universal_robots.py` lines 22–46, identically
`Ruki_C.py` lines 348–371): position from column 3 of the 4×4 matrix scaled
mm→m, rotation via `extractRot`; falls through to the xyzrpw `pose` field
when there is no usable matrix. -/
noncomputable def get_cartesian_pose (t : PoseTarget) : Option (List ℝ) :=
  match t.pose_matrix with
  | some m =>
    if m ≠ [] ∧ m.length = 4 then
      let x := mval m 0 3 / 1000
      let y := mval m 1 3 / 1000
      let z := mval m 2 3 / 1000
      let r := extractRot (rotOf m)
      some [x, y, z, r.1, r.2.1, r.2.2]
    else poseFromXyzrpw t
  | none => poseFromXyzrpw t

/-- The rotation matrix that `ur_pose_to_robodk` (emitted helper in
`script_para_robodk`, `universal_robots.py` lines 359–361) rebuilds from a
unit axis `(kx, ky, kz)` and an angle via Rodrigues' formula. -/
noncomputable def rodrigues (kx ky kz theta : ℝ) : Rot3 :=
  let c := Real.cos theta
  let s := Real.sin theta
  let v := 1 - c
  ⟨kx * kx * v + c, kx * ky * v - kz * s, kx * kz * v + ky * s,
   kx * ky * v + kz * s, ky * ky * v + c, ky * kz * v - kx * s,
   kx * kz * v - ky * s, ky * kz * v + kx * s, kz * kz * v + c⟩

/-- The rotation-matrix computation of `ur_pose_to_robodk`
(`universal_robots.py` lines 352–361) on a rotation vector: angle = norm;
below the 1e-10 threshold the function returns a pose with zero Euler
angles, whose rotation part is the identity; otherwise Rodrigues on the
normalized axis. -/
noncomputable def ur_rot_of_rotvec (rx ry rz : ℝ) : Rot3 :=
  let angle := Real.sqrt (rx * rx + ry * ry + rz * rz)
  if angle < 1e-10 then Rot3.one
  else rodrigues (rx / angle) (ry / angle) (rz / angle) angle

/-- Extraction followed by reconstruction: the round trip of claim C3. -/
noncomputable def reconRot (R : Rot3) : Rot3 :=
  let r := extractRot R
  ur_rot_of_rotvec r.1 r.2.1 r.2.2

/-- Entrywise closeness of two rotation matrices within `eps`. -/
def Rot3.close (A B : Rot3) (eps : ℝ) : Prop :=
  |A.r00 - B.r00| ≤ eps ∧ |A.r01 - B.r01| ≤ eps ∧ |A.r02 - B.r02| ≤ eps ∧
  |A.r10 - B.r10| ≤ eps ∧ |A.r11 - B.r11| ≤ eps ∧ |A.r12 - B.r12| ≤ eps ∧
  |A.r20 - B.r20| ≤ eps ∧ |A.r21 - B.r21| ≤ eps ∧ |A.r22 - B.r22| ≤ eps

/-! ## The IR builder (`src/postprocessor/Ruki_E.py`, class `RobotPost`)

We model the standalone code path (`ROBODK_AVAILABLE = False`): poses that
RoboDK would pass as `Mat` objects are already `[x,y,z,rx,ry,rz]` lists, the
mock `pose_to_xyzrpw_deg` returns those six entries (or fails to `None` on a
shorter list, via the broad `except`), and the mock `pose_to_matrix` returns
the identity matrix. -/

/-- Interpreter state tracked by the builder (`Ruki_E.py` lines 303–313),
with its default values.  All angles are degrees. -/
structure CurState where
  active_frame : String := "world"
  active_frame_id : Int := -1
  active_tool : String := "tool0"
  active_tool_id : Int := -1
  speed_linear : ℝ := 500
  speed_joints : ℝ := 60
  accel_linear : ℝ := 2000
  accel_joints : ℝ := 180
  rounding : ℝ := 0

/-- One IR target as written by `_add_target` (`Ruki_E.py` lines 367–400).
The nested `context` and `external_axes` dicts are flattened into fields;
the two external-axis poses are always `None` here because `_PoseTrack` and
`_PoseTurntable` stay `None` outside a RoboDK session. -/
structure BTarget where
  id : String
  name : String
  is_joint_target : Bool
  joints : Option (List ℝ)
  pose : Option (List ℝ)
  config_RLF : Option (List Int)
  ctx_frame : String
  ctx_frame_id : Int
  ctx_tool : String
  ctx_tool_id : Int
  pose_matrix : Option (List (List ℝ))

/-- Zero-padding of `f"T{n:03d}"`: decimal digits, left-padded with zeros to
at least width 3. -/
def pad3 (n : Nat) : String :=
  let s := toString n
  if s.length < 3 then String.mk (List.replicate (3 - s.length) '0') ++ s else s

/-- The Python value `bool | float` stored in an IO step's `value` field. -/
inductive IOVal where
  | b (v : Bool)
  | f (v : ℝ)

/-- The type-specific payload of one step (`**kwargs` of `_add_step`), one
constructor per `_add_step` call site in `Ruki_E.py`.  Optional entries
model keyword arguments that are conditionally present. -/
inductive StepData where
  | move (target : String) (target_name : Option String)
  | moveC (target_via : String) (target_via_name : Option String)
      (target_end : String) (target_end_name : Option String)
  | setFrameD (frame : String) (frame_id : Int) (frame_name : Option String)
  | setToolD (tool : String) (tool_id : Int) (tool_name : Option String)
  | setSpeedD (speed_linear : Option ℝ) (speed_joints : Option ℝ)
  | setAccelD (accel_linear : Option ℝ) (accel_joints : Option ℝ)
  | setRoundingD (rounding : ℝ)
  | setIOD (io_ref : String) (io_type : String) (io_index : Int) (value : IOVal)
  | waitIOD (io_ref : String) (io_type : String) (io_index : Int) (value : Bool)
      (timeout_s : Option ℝ)
  | pauseD (duration_s : Option ℝ) (is_user_pause : Bool)
  | runCodeD (code : String) (is_function_call : Bool)
  | messageD (text : String) (is_comment : Bool)

/-- One program step (`_add_step`, `Ruki_E.py` lines 409–457). -/
structure BStep where
  index : Nat
  type : String
  state_before : CurState
  data : StepData
  state_after : CurState

/-- The state update performed inside `_add_step` (`Ruki_E.py` lines
431–452), keyed on the step-type string.  Combinations of type tag and
payload that no call site produces leave the state unchanged (in Python
they would read absent kwargs and apply defaults, but they are
unreachable). -/
def updateState (ty : String) (d : StepData) (cs : CurState) : CurState :=
  match ty, d with
  | "SET_FRAME", .setFrameD f fid _ =>
      { cs with active_frame := f, active_frame_id := fid }
  | "SET_TOOL", .setToolD t tid _ =>
      { cs with active_tool := t, active_tool_id := tid }
  | "SET_SPEED", .setSpeedD sl sj =>
      let cs' := match sl with
        | some v => { cs with speed_linear := v }
        | none => cs
      match sj with
      | some v => { cs' with speed_joints := v }
      | none => cs'
  | "SET_ACCEL", .setAccelD al aj =>
      let cs' := match al with
        | some v => { cs with accel_linear := v }
        | none => cs
      match aj with
      | some v => { cs' with accel_joints := v }
      | none => cs'
  | "SET_ROUNDING", .setRoundingD r => { cs with rounding := r }
  | _, _ => cs

/-- The builder object: the mutable attributes of `RobotPost` that the
modelled callbacks read or write (`Ruki_E.py` `__init__`, lines 211–320).
Frames and tools are tracked as key/pose association lists; their `_meta`
and payload sub-fields are carried by no claim and are omitted. -/
structure Builder where
  prog_name : String := ""
  prog_names : List String := []
  frames : List (String × Option (List ℝ)) := [("world", some [0, 0, 0, 0, 0, 0])]
  tools : List (String × Option (List ℝ)) := [("tool0", some [0, 0, 0, 0, 0, 0])]
  target_counter : Nat := 0
  targets : List BTarget := []
  io_map : List (String × String × Int) := []
  steps : List BStep := []
  instruction_index : Nat := 0
  current_state : CurState := {}
  initial_state : Option CurState := none
  current_subprogram : Option String := none
  subprograms : List (String × Nat × Option Nat) := []

/-- `pose_to_xyzrpw_deg` on the standalone path (`Ruki_E.py` lines 88–92):
the first six entries of the list, or `None` (through the broad `except`)
when fewer than six are present. -/
def pose_to_xyzrpw_deg (pose : Option (List ℝ)) : Option (List ℝ) :=
  match pose with
  | some p =>
    if 6 ≤ p.length then
      some [p.getD 0 0, p.getD 1 0, p.getD 2 0, p.getD 3 0, p.getD 4 0, p.getD 5 0]
    else none
  | none => none

/-- `pose_to_matrix` on the standalone path (`Ruki_E.py` lines 113–114):
the identity matrix for a non-`None` pose. -/
def pose_to_matrix (pose : Option (List ℝ)) : Option (List (List ℝ)) :=
  match pose with
  | some _ => some [[1, 0, 0, 0], [0, 1, 0, 0], [0, 0, 1, 0], [0, 0, 0, 1]]
  | none => none

/-- `filter_name` fallback path (`Ruki_E.py` lines 152–158): keep
alphanumerics, `_` and `-`; replace everything else by `_`. -/
def filter_name (name : String) : String :=
  String.mk (name.data.map fun c => if c.isAlphanum || c = '_' || c = '-' then c else '_')

/-- `_add_target` (`Ruki_E.py` lines 343–403): increments the counter,
builds the target record and appends it, returning the fresh id.  There is
no validation and no failure path: both `pose` and `joints` may be `None`.
The Python `name if name else ...` default also fires on an empty string. -/
def addTarget (b : Builder) (pose : Option (List ℝ)) (joints : Option (List ℝ))
    (conf_RLF : Option (List Int)) (name : Option String) : String × Builder :=
  let counter := b.target_counter + 1
  let target_id := "T" ++ pad3 counter
  let t : BTarget := {
    id := target_id
    name := match name with
      | some s => if s.isEmpty then "Target_" ++ toString counter else s
      | none => "Target_" ++ toString counter
    is_joint_target := pose.isNone
    joints := joints
    pose := pose_to_xyzrpw_deg pose
    config_RLF := conf_RLF
    ctx_frame := b.current_state.active_frame
    ctx_frame_id := b.current_state.active_frame_id
    ctx_tool := b.current_state.active_tool
    ctx_tool_id := b.current_state.active_tool_id
    pose_matrix := match pose with
      | some _ => pose_to_matrix pose   -- INCLUDE_MATRICES = True
      | none => none }
  (target_id, { b with target_counter := counter, targets := b.targets ++ [t] })

/-- `_add_step` (`Ruki_E.py` lines 409–457): increments the instruction
index, snapshots the state before, applies the `SET_*` update, snapshots
the state after and appends the step. -/
def addStep (b : Builder) (ty : String) (d : StepData) : Builder :=
  let idx := b.instruction_index + 1
  let before := b.current_state
  let after := updateState ty d before
  { b with
    instruction_index := idx
    current_state := after
    steps := b.steps ++
      [{ index := idx, type := ty, state_before := before, data := d, state_after := after }] }

/-- `_get_io_ref` (`Ruki_E.py` lines 463–482): builds `"{type}_{var}"` and
registers it in the IO map on first use. -/
def getIORef (b : Builder) (io_var : Int) (io_type : String) : String × Builder :=
  let io_ref := io_type ++ "_" ++ toString io_var
  if b.io_map.any (fun e => e.1 = io_ref) then (io_ref, b)
  else (io_ref, { b with io_map := b.io_map ++ [(io_ref, io_type, io_var)] })

/-- One invocation of a RoboDK post-processor callback on `RobotPost`, with
the arguments RoboDK would pass.  `targetName` arguments model the value of
`self._TargetName` (set attribute-style by RoboDK before a move when
`ProgMoveNames` is on). -/
inductive Callback where
  | progStart (progname : String)
  | progFinish (progname : String)
  | moveJ (pose : Option (List ℝ)) (joints : Option (List ℝ))
      (conf_RLF : Option (List Int)) (targetName : Option String)
  | moveL (pose : Option (List ℝ)) (joints : Option (List ℝ))
      (conf_RLF : Option (List Int)) (targetName : Option String)
  | moveC (pose1 : Option (List ℝ)) (joints1 : Option (List ℝ))
      (pose2 : Option (List ℝ)) (joints2 : Option (List ℝ))
      (conf1 : Option (List Int)) (conf2 : Option (List Int))
      (viaName : Option String) (endName : Option String)
  | setFrameCb (pose : Option (List ℝ)) (frame_id : Int) (frame_name : Option String)
  | setToolCb (pose : Option (List ℝ)) (tool_id : Int) (tool_name : Option String)
  | setSpeedCb (speed_mms : ℝ)
  | setSpeedJointsCb (speed_degs : ℝ)
  | setAccelerationCb (accel_mmss : ℝ)
  | setAccelerationJointsCb (accel_degss : ℝ)
  | setZoneDataCb (zone_mm : ℝ)
  | setDOCb (io_var : Int) (io_value : Bool)
  | setAOCb (io_var : Int) (io_value : ℝ)
  | waitDICb (io_var : Int) (io_value : Bool) (timeout_ms : ℝ)
  | pauseCb (time_ms : ℝ)
  | runCodeCb (code : String) (is_function_call : Bool)
  | runMessageCb (message : String) (iscomment : Bool)

/-- `ProgStart` (`Ruki_E.py` lines 488–502): filter the name, record it,
capture the initial-state snapshot on the first call only, and open a
subprogram for every call after the first. -/
def progStartCb (b : Builder) (progname : String) : Builder :=
  let pn := filter_name progname
  let b1 := { b with prog_name := pn, prog_names := b.prog_names ++ [pn] }
  let b2 :=
    if b1.initial_state.isNone then { b1 with initial_state := some b1.current_state } else b1
  if 1 < b2.prog_names.length then
    { b2 with
      current_subprogram := some pn
      subprograms := b2.subprograms ++ [(pn, b2.instruction_index + 1, none)] }
  else b2

/-- `ProgFinish` (`Ruki_E.py` lines 504–508): close the open subprogram by
recording its end step. -/
def progFinishCb (b : Builder) : Builder :=
  match b.current_subprogram with
  | some n =>
    { b with
      subprograms := b.subprograms.map fun e =>
        if e.1 = n then (e.1, e.2.1, some b.instruction_index) else e
      current_subprogram := none }
  | none => b

/-- Dispatch of one callback, following the bodies of the corresponding
`RobotPost` methods (`Ruki_E.py` lines 488–831). -/
noncomputable def runCallback (b : Builder) : Callback → Builder
  | .progStart n => progStartCb b n
  | .progFinish _ => progFinishCb b
  | .moveJ pose joints conf name =>
    let (tid, b') := addTarget b pose joints conf name
    addStep b' "MOVE_J" (.move tid name)
  | .moveL pose joints conf name =>
    let (tid, b') := addTarget b pose joints conf name
    addStep b' "MOVE_L" (.move tid name)
  | .moveC p1 j1 p2 j2 c1 c2 viaName endName =>
    let (vid, b1) := addTarget b p1 j1 c1 viaName
    let (eid, b2) := addTarget b1 p2 j2 c2 endName
    addStep b2 "MOVE_C" (.moveC vid viaName eid endName)
  | .setFrameCb pose fid fname =>
    let key := match fname with
      | some s => if s.isEmpty then "frame_" ++ toString fid else filter_name s
      | none => "frame_" ++ toString fid
    let b' := { b with frames := b.frames ++ [(key, pose_to_xyzrpw_deg pose)] }
    addStep b' "SET_FRAME" (.setFrameD key fid fname)
  | .setToolCb pose tid tname =>
    let key := match tname with
      | some s => if s.isEmpty then "tool_" ++ toString tid else filter_name s
      | none => "tool_" ++ toString tid
    let b' := { b with tools := b.tools ++ [(key, pose_to_xyzrpw_deg pose)] }
    addStep b' "SET_TOOL" (.setToolD key tid tname)
  | .setSpeedCb v => addStep b "SET_SPEED" (.setSpeedD (some v) none)
  | .setSpeedJointsCb v => addStep b "SET_SPEED" (.setSpeedD none (some v))
  | .setAccelerationCb v => addStep b "SET_ACCEL" (.setAccelD (some v) none)
  | .setAccelerationJointsCb v => addStep b "SET_ACCEL" (.setAccelD none (some v))
  | .setZoneDataCb v => addStep b "SET_ROUNDING" (.setRoundingD v)
  | .setDOCb io_var io_value =>
    let (ref, b') := getIORef b io_var "DO"
    addStep b' "SET_IO" (.setIOD ref "DO" io_var (.b io_value))
  | .setAOCb io_var io_value =>
    let (ref, b') := getIORef b io_var "AO"
    addStep b' "SET_IO" (.setIOD ref "AO" io_var (.f io_value))
  | .waitDICb io_var io_value timeout_ms =>
    let (ref, b') := getIORef b io_var "DI"
    addStep b' "WAIT_IO"
      (.waitIOD ref "DI" io_var io_value
        (if 0 < timeout_ms then some (timeout_ms / 1000) else none))
  | .pauseCb time_ms =>
    addStep b "PAUSE"
      (.pauseD (if 0 < time_ms then some (time_ms / 1000) else none) (time_ms < 0))
  | .runCodeCb code is_fn => addStep b "RUN_CODE" (.runCodeD code is_fn)
  | .runMessageCb msg isc => addStep b "MESSAGE" (.messageD msg isc)

/-- A fresh `RobotPost` instance. -/
def initBuilder : Builder := {}

/-- Replaying a sequence of callbacks on a builder. -/
noncomputable def runCallbacks (b : Builder) (cs : List Callback) : Builder :=
  cs.foldl runCallback b

/-! ## The format emitters (`src/assets/emitters/universal_robots.py`)

File writing is modelled by returning the would-be output (path plus
structured content) as the third component of the result triple; `None`
there means no file is written.  XML serialization, indentation and gzip
compression are byte-level post-processing of the element tree and are not
modelled; an element records exactly the data the Python code stores in
it.  A `Move` element's `angles` field holds the radian joint values whose
6-decimal rendering the Python code stores in the `JointAngles` attribute;
a script line likewise holds the numeric values it renders. -/

/-- An IR target as read by the emitters.  `joints = none` models a target
dict WITHOUT a `'joints'` key, so that `t.get('joints', [0]*6)` yields the
zero default.  (A target carrying an explicit `null` joints value would
make the Python emitters raise while iterating `None`; no claim covers that
case.) -/
structure ETarget where
  joints : Option (List ℝ) := none
  pose_matrix : Option (List (List ℝ)) := none
  pose : Option (List ℝ) := none

/-- The fields of an `ETarget` that `get_cartesian_pose` reads. -/
def ETarget.poseView (t : ETarget) : PoseTarget := ⟨t.pose_matrix, t.pose⟩

/-- An IR step as read by the emitters, with the optional JSON fields the
Python code accesses via `step.get(...)`.  `value` is the truthiness of
`step.get('value')`. -/
structure RStep where
  type : Option String := none
  target : Option String := none
  io_index : Option Int := none
  value : Bool := false
  text : Option String := none
  is_comment : Bool := false

/-- `targets.get(step.get('target'), {})`: the dict built by
`{t['id']: t for t in ruki.get('targets', [])}` keyed by id, defaulting to
the empty dict for an absent or `None` key.  (With duplicate ids the dict
comprehension would keep the last entry; the model keeps the first — no
claim exercises duplicate ids.) -/
def lookupTarget (ts : List (String × ETarget)) : Option String → ETarget
  | some tid => (((ts.find? fun p => p.1 = tid).map Prod.snd)).getD {}
  | none => {}

/-- The IR document pieces that the emitters read. -/
structure RukiDoc where
  program_name : Option String := none
  targets : List (String × ETarget) := []
  steps : List RStep := []

/-- A per-model catalog entry as the emitters use it (`robot_data`). -/
structure RobotData where
  urp : List (String × String) := []
  nome_completo : String := ""

/-- The attribute that the `feature`/`pin` child of an archive element
carries: either the direct `referencedName` or the relative back
`reference`. -/
inductive FeatAttr where
  | referencedName (value : String)
  | reference (value : String)
deriving DecidableEq

/-- One emitted archive element: a `Move` (with its `feature` attribute,
waypoint name and radian joint angles) or a `Set` (with its `pin` attribute
and digital value).  This records every datum the Python code stores that
varies per element; the fixed attributes (speed, acceleration, kinematics
block, …) are constants in the source. -/
inductive UrpElem where
  | move (motionType : String) (feature : FeatAttr) (waypoint_name : String)
      (angles : List ℝ)
  | set (pin : FeatAttr) (digitalValue : Bool)

/-- The loop state of the two archive emitters: emitted elements plus the
`mc`/`ic`/`wp` counters, and `movel_sem_joints` which only `script_para_urp`
uses (it stays 0 on the IR path). -/
structure UrpState where
  elems : List UrpElem := []
  mc : Nat := 0
  ic : Nat := 0
  wp : Nat := 0
  movel_sem_joints : Nat := 0

/-- One step of the `ruki_para_urp` loop (`universal_robots.py` lines
192–219, identically `converter_ruki_para_urp` in `Ruki_C.py` lines
449–476): MOVE_J/MOVE_L emit a waypoint from the target's joints (zero
default), SET_IO emits a `Set`, everything else is ignored. -/
noncomputable def urpStepIR (ts : List (String × ETarget)) (st : UrpState)
    (step : RStep) : UrpState :=
  let ty := step.type.getD ""
  if ty = "MOVE_J" ∨ ty = "MOVE_L" then
    let t := lookupTarget ts step.target
    let j := (t.joints.getD (List.replicate 6 0)).map deg2rad
    let motion := if ty = "MOVE_J" then "MoveJ" else "MoveL"
    let wp' := st.wp + 1
    let feat := if st.mc = 0 then FeatAttr.referencedName "Joint_0_name"
      else FeatAttr.reference "../../Move/feature"
    { st with
      elems := st.elems ++ [UrpElem.move motion feat ("Waypoint_" ++ toString wp') j]
      wp := wp'
      mc := st.mc + 1 }
  else if ty = "SET_IO" then
    let pin := if st.ic = 0 then
        FeatAttr.referencedName ("digital_out[" ++ toString (step.io_index.getD 0) ++ "]")
      else FeatAttr.reference "../../Set/pin"
    { st with elems := st.elems ++ [UrpElem.set pin step.value], ic := st.ic + 1 }
  else st

/-- A parsed script command from `parse_script_moves`: a move (with the
`'joints'` and/or `'pose'` keys that were stored) or an IO write. -/
inductive Cmd where
  | move (tipo : String) (joints : Option (List ℝ)) (pose : Option (List ℝ))
  | io (index : Int) (value : Bool)

/-- One step of the `script_para_urp` loop (`universal_robots.py` lines
261–292): a move without `'joints'` only bumps `movel_sem_joints` and is
skipped; otherwise a waypoint is emitted; IO commands emit a `Set`. -/
noncomputable def urpStepCmd (st : UrpState) : Cmd → UrpState
  | .move tipo joints _pose =>
    match joints with
    | none => { st with movel_sem_joints := st.movel_sem_joints + 1 }
    | some js =>
      let wp' := st.wp + 1
      let j := js.map deg2rad
      let feat := if st.mc = 0 then FeatAttr.referencedName "Joint_0_name"
        else FeatAttr.reference "../../Move/feature"
      { st with
        elems := st.elems ++ [UrpElem.move tipo feat ("Waypoint_" ++ toString wp') j]
        wp := wp'
        mc := st.mc + 1 }
  | .io index value =>
    let pin := if st.ic = 0 then
        FeatAttr.referencedName ("digital_out[" ++ toString index ++ "]")
      else FeatAttr.reference "../../Set/pin"
    { st with elems := st.elems ++ [UrpElem.set pin value], ic := st.ic + 1 }

/-- The written archive file, as path plus element content. -/
structure UrpFile where
  path : String
  elems : List UrpElem

/-- `ruki_para_urp` (`universal_robots.py` lines 174–236): fails only when
`robot_data` is missing; otherwise folds the steps and unconditionally
writes the file and reports success — there is no empty-result check on
this path. -/
noncomputable def ruki_para_urp (doc : RukiDoc) (robot_data : Option RobotData)
    (pasta : String) : Bool × String × Option UrpFile :=
  let nome := doc.program_name.getD "programa"
  match robot_data with
  | none => (false, "Dados do robô não encontrados", none)
  | some rd =>
    let st := doc.steps.foldl (urpStepIR doc.targets) {}
    let caminho := pasta ++ "/" ++ nome ++ ".urp"
    (true,
      "Modelo: " ++ rd.nome_completo ++ "\nMovimentos: " ++ toString st.mc ++
        "\nIOs: " ++ toString st.ic ++ "\n\nArquivo: " ++ caminho,
      some ⟨caminho, st.elems⟩)

/-- `script_para_urp` (`universal_robots.py` lines 238–315) downstream of
parsing: `nome` is the input file's base name and `cmds` the output of
`parse_script_moves`.  With zero moves and zero IOs it fails with
"Nenhum comando encontrado" ("no command found") before writing; otherwise
it writes and reports success, appending a skipped-moves warning when
`movel_sem_joints > 0`. -/
noncomputable def script_para_urp (cmds : List Cmd) (nome : String)
    (robot_data : Option RobotData) (pasta : String) : Bool × String × Option UrpFile :=
  match robot_data with
  | none => (false, "Dados do robô não encontrados", none)
  | some _rd =>
    let st := cmds.foldl urpStepCmd {}
    if st.mc = 0 ∧ st.ic = 0 then (false, "Nenhum comando encontrado", none)
    else
      let caminho := pasta ++ "/" ++ nome ++ ".urp"
      let msg := "Movimentos: " ++ toString st.mc ++ "\nIOs: " ++ toString st.ic
      let msg' := if 0 < st.movel_sem_joints then
          msg ++ "\n\n⚠ " ++ toString st.movel_sem_joints ++
            " MoveL ignorados (sem #JOINTS)\nUse .script do RoboDK com output joints+cartesian"
        else msg
      (true, msg' ++ "\n\nArquivo: " ++ caminho, some ⟨caminho, st.elems⟩)

/-- One emitted URScript program line (step lines only; the fixed preamble
and the `end`/invocation footer are constants around them).  A line holds
the numeric values the Python code renders at 6 decimals. -/
inductive SLine where
  | movej (joints_rad : List ℝ)
  | movel (pose : List ℝ)
  | setio (index : Int) (value : Bool)
  | comment (text : String)

/-- The loop state of `ruki_para_script`. -/
structure ScriptState where
  linhas : List SLine := []
  mc : Nat := 0
  ic : Nat := 0

/-- One step of the `ruki_para_script` loop (`universal_robots.py` lines
149–166, identically `converter_ruki_para_script` in `Ruki_C.py`):
MOVE_J always emits (zero-default joints); MOVE_L emits only when
`get_cartesian_pose` resolves a pose and is otherwise skipped with no
trace; SET_IO and comment MESSAGEs emit their lines. -/
noncomputable def scriptStepIR (ts : List (String × ETarget)) (st : ScriptState)
    (step : RStep) : ScriptState :=
  let ty := step.type.getD ""
  if ty = "MOVE_J" then
    let t := lookupTarget ts step.target
    let j := (t.joints.getD (List.replicate 6 0)).map deg2rad
    { st with linhas := st.linhas ++ [SLine.movej j], mc := st.mc + 1 }
  else if ty = "MOVE_L" then
    let t := lookupTarget ts step.target
    match get_cartesian_pose t.poseView with
    | some pose => { st with linhas := st.linhas ++ [SLine.movel pose], mc := st.mc + 1 }
    | none => st
  else if ty = "SET_IO" then
    { st with linhas := st.linhas ++ [SLine.setio (step.io_index.getD 0) step.value]
              ic := st.ic + 1 }
  else if ty = "MESSAGE" ∧ step.is_comment then
    { st with linhas := st.linhas ++ [SLine.comment (step.text.getD "")] }
  else st

/-- `ruki_para_script` (`universal_robots.py` lines 134–172): folds the
steps, writes the script and always returns success with the counts-only
message `"Movimentos: {mc}\nIOs: {ic}\n\nArquivo: {path}"` — skipped
MOVE_L steps leave no trace in it. -/
noncomputable def ruki_para_script (doc : RukiDoc) (pasta : String) :
    (List SLine × Bool × String × Option String) :=
  let nome := doc.program_name.getD "programa"
  let st := doc.steps.foldl (scriptStepIR doc.targets) {}
  let caminho := pasta ++ "/" ++ nome ++ ".script"
  (st.linhas, true,
    "Movimentos: " ++ toString st.mc ++ "\nIOs: " ++ toString st.ic ++
      "\n\nArquivo: " ++ caminho,
    some caminho)

/-! ## Script-grammar numeric-unit heuristic -/

/-- The radians-vs-degrees heuristic applied to every parsed joint list
(`universal_robots.py` lines 92–93 and 102, `Ruki_C.py` line 596):
convert rad→deg exactly when every value has `|v| < 7`. -/
noncomputable def radHeuristic (vals : List ℝ) : List ℝ :=
  if ∀ v ∈ vals, |v| < 7 then vals.map rad2deg else vals

/-! ## Model detection (`detectar_modelo`, script branch) -/

/-- A regex word character (`\w` over ASCII): letter, digit or underscore.
The catalog keys and script text exercised here are ASCII, where this
matches Python's `\b` semantics. -/
def isWordChar (c : Char) : Bool := c.isAlphanum || c = '_'

/-- Whether position `i` of `l` holds a word character (out of range counts
as non-word). -/
def wordAt (l : List Char) (i : Nat) : Bool :=
  match l.get? i with
  | some c => isWordChar c
  | none => false

/-- Regex `\b`: a boundary lies at position `i` when exactly one of the
characters around it is a word character. -/
def boundaryAt (l : List Char) (i : Nat) : Bool :=
  (match i with
   | 0 => false
   | j + 1 => wordAt l j) != wordAt l i

/-- The (case-folded) key matches at position `i` with word boundaries on
both sides: `re.search(r'\b' + re.escape(m) + r'\b', ...)` at one
position. -/
def matchAt (key text : List Char) (i : Nat) : Bool :=
  decide ((text.drop i).take key.length = key) && boundaryAt text i &&
    boundaryAt text (i + key.length)

/-- Case-insensitive whole-word search of `key` in `texto`
(`re.search(r'\b…\b', texto, re.IGNORECASE)` as a Boolean).  ASCII case
folding via `Char.toLower` mirrors `re.IGNORECASE` on the ASCII catalog
keys. -/
def wordMatch (key texto : String) : Bool :=
  let k := key.data.map Char.toLower
  let t := texto.data.map Char.toLower
  (List.range (t.length + 1)).any fun i => matchAt k t i

/-- The `for m in robos.keys()` loop of `detectar_modelo`
(`universal_robots.py` lines 58–59): first key (in catalog declaration
order) with a whole-word match wins. -/
def findModelo (robos : List String) (texto : String) : Option String :=
  match robos with
  | [] => none
  | m :: rest => if wordMatch m texto then some m else findModelo rest texto

/-- The script-text branch of `detectar_modelo` (`universal_robots.py`
lines 56–61): join the first 100 lines and scan the catalog keys in
order; `None` when nothing matches. -/
def detectar_modelo_text (robos : List String) (linhas : List String) : Option String :=
  findModelo robos (String.intercalate "\n" (linhas.take 100))

/-! ## Derived views used to state the claims -/

/-- The `feature` attributes of the `Move` elements of a document, in
order. -/
def movesOf (l : List UrpElem) : List FeatAttr :=
  l.filterMap fun e => match e with
    | .move _ f _ _ => some f
    | _ => none

/-- The `pin` attributes of the `Set` elements of a document, in order. -/
def setsOf (l : List UrpElem) : List FeatAttr :=
  l.filterMap fun e => match e with
    | .set p _ => some p
    | _ => none

/-- The first/subsequent attribute pattern for `n` `Move` elements. -/
def featPattern : Nat → List FeatAttr
  | 0 => []
  | n + 1 => FeatAttr.referencedName "Joint_0_name" ::
      List.replicate n (FeatAttr.reference "../../Move/feature")

/-- The first/subsequent attribute pattern for `Set` elements whose source
IO commands carry the given indices: the first pin names its own index,
the rest are back-references. -/
def pinPattern : List Int → List FeatAttr
  | [] => []
  | i :: rest => FeatAttr.referencedName ("digital_out[" ++ toString i ++ "]") ::
      rest.map fun _ => FeatAttr.reference "../../Set/pin"

/-- Number of parsed script commands that emit a waypoint (moves carrying
joints). -/
def cmdMoves (cmds : List Cmd) : Nat :=
  (cmds.filter fun c => match c with
    | .move _ (some _) _ => true
    | _ => false).length

/-- Number of parsed script moves lacking joints (the skipped ones). -/
def cmdSkips (cmds : List Cmd) : Nat :=
  (cmds.filter fun c => match c with
    | .move _ none _ => true
    | _ => false).length

/-- The IO indices of the parsed script IO commands, in order. -/
def cmdIOIdxs (cmds : List Cmd) : List Int :=
  cmds.filterMap fun c => match c with
    | .io i _ => some i
    | _ => none

/-- Number of IR steps that emit a waypoint on the archive path. -/
def stepMoves (steps : List RStep) : Nat :=
  (steps.filter fun s =>
    decide (s.type.getD "" = "MOVE_J" ∨ s.type.getD "" = "MOVE_L")).length

/-- The IO indices (with the `0` default) of the SET_IO steps, in order. -/
def stepIOIdxs (steps : List RStep) : List Int :=
  steps.filterMap fun s =>
    if s.type.getD "" = "SET_IO" then some (s.io_index.getD 0) else none

/-- Claim C4's description of the rotation-vector computation, written from
the specification text: angle from the clamped trace, then the three
branches (identity, 180° singularity with conditional sign flips, generic
`k·(R21−R12, R02−R20, R10−R01)`). -/
noncomputable def rotvecSpec (R : Rot3) : ℝ × ℝ × ℝ :=
  let angle := Real.arccos (max (-1) (min 1 ((R.r00 + R.r11 + R.r22 - 1) / 2)))
  if |angle| < 1e-10 then (0, 0, 0)
  else if |angle - Real.pi| < 1e-10 then
    (Real.sqrt ((R.r00 + 1) / 2) * Real.pi,
     if R.r01 < 0 then -(Real.sqrt ((R.r11 + 1) / 2) * Real.pi)
       else Real.sqrt ((R.r11 + 1) / 2) * Real.pi,
     if R.r02 < 0 then -(Real.sqrt ((R.r22 + 1) / 2) * Real.pi)
       else Real.sqrt ((R.r22 + 1) / 2) * Real.pi)
  else
    (angle / (2 * Real.sin angle) * (R.r21 - R.r12),
     angle / (2 * Real.sin angle) * (R.r02 - R.r20),
     angle / (2 * Real.sin angle) * (R.r10 - R.r01))

/-- The attribute suffix produced by the rest of an emitter run that emits
`n` further `Move` elements, when `k` moves were already emitted. -/
def featSuffix (k n : Nat) : List FeatAttr :=
  if k = 0 then featPattern n
  else List.replicate n (FeatAttr.reference "../../Move/feature")

/-- The attribute suffix produced by the rest of an emitter run whose
further IO commands carry `idxs`, when `k` `Set` elements were already
emitted. -/
def pinSuffix (k : Nat) (idxs : List Int) : List FeatAttr :=
  if k = 0 then pinPattern idxs
  else idxs.map fun _ => FeatAttr.reference "../../Set/pin"

/-- The step-index invariant of the builder: the instruction counter equals
the number of recorded steps and the indices read `1, 2, …` in order. -/
def idxOK (b : Builder) : Prop :=
  b.instruction_index = b.steps.length ∧
  b.steps.map BStep.index = List.range' 1 b.steps.length

/-! ## Theorems -/

theorem range'_concat_one (s n : Nat) :
    List.range' s (n + 1) = List.range' s n ++ [s + n] := by
  induction n generalizing s with
  | zero => simp [List.range'_succ]
  | succ k ih =>
      rw [List.range'_succ, ih (s + 1), List.range'_succ]
      simp
      omega

theorem idxOK_of_eq {b b' : Builder} (hs : b'.steps = b.steps)
    (hi : b'.instruction_index = b.instruction_index) (h : idxOK b) : idxOK b' :=
  ⟨by rw [hs, hi, h.1], by rw [hs, h.2]⟩

theorem idxOK_addStep {b : Builder} (h : idxOK b) (ty : String) (d : StepData) :
    idxOK (addStep b ty d) := by
  obtain ⟨h1, h2⟩ := h
  constructor
  · simp [addStep, h1]
  · simp only [addStep, List.map_append, List.length_append, List.map_cons, List.map_nil,
      List.length_cons, List.length_nil]
    rw [h2, h1, range'_concat_one 1 b.steps.length]
    simp [Nat.add_comm]

theorem getIORef_steps (b : Builder) (v : Int) (ty : String) :
    (getIORef b v ty).2.steps = b.steps ∧
    (getIORef b v ty).2.instruction_index = b.instruction_index := by
  unfold getIORef
  dsimp only
  split <;> exact ⟨rfl, rfl⟩

theorem progStartCb_steps (b : Builder) (n : String) :
    (progStartCb b n).steps = b.steps ∧
    (progStartCb b n).instruction_index = b.instruction_index := by
  unfold progStartCb
  dsimp only
  split <;> split <;> exact ⟨rfl, rfl⟩

theorem progFinishCb_steps (b : Builder) :
    (progFinishCb b).steps = b.steps ∧
    (progFinishCb b).instruction_index = b.instruction_index := by
  unfold progFinishCb
  cases b.current_subprogram <;> exact ⟨rfl, rfl⟩

theorem idxOK_runCallback {b : Builder} (c : Callback) (h : idxOK b) :
    idxOK (runCallback b c) := by
  cases c with
  | progStart n =>
      exact idxOK_of_eq (progStartCb_steps b n).1 (progStartCb_steps b n).2 h
  | progFinish n =>
      exact idxOK_of_eq (progFinishCb_steps b).1 (progFinishCb_steps b).2 h
  | moveJ pose joints conf name => exact idxOK_addStep (idxOK_of_eq rfl rfl h) _ _
  | moveL pose joints conf name => exact idxOK_addStep (idxOK_of_eq rfl rfl h) _ _
  | moveC p1 j1 p2 j2 c1 c2 vn en => exact idxOK_addStep (idxOK_of_eq rfl rfl h) _ _
  | setFrameCb pose fid fname => exact idxOK_addStep (idxOK_of_eq rfl rfl h) _ _
  | setToolCb pose tid tname => exact idxOK_addStep (idxOK_of_eq rfl rfl h) _ _
  | setSpeedCb v => exact idxOK_addStep h _ _
  | setSpeedJointsCb v => exact idxOK_addStep h _ _
  | setAccelerationCb v => exact idxOK_addStep h _ _
  | setAccelerationJointsCb v => exact idxOK_addStep h _ _
  | setZoneDataCb v => exact idxOK_addStep h _ _
  | setDOCb v val =>
      exact idxOK_addStep
        (idxOK_of_eq (getIORef_steps b v "DO").1 (getIORef_steps b v "DO").2 h) _ _
  | setAOCb v val =>
      exact idxOK_addStep
        (idxOK_of_eq (getIORef_steps b v "AO").1 (getIORef_steps b v "AO").2 h) _ _
  | waitDICb v val t =>
      exact idxOK_addStep
        (idxOK_of_eq (getIORef_steps b v "DI").1 (getIORef_steps b v "DI").2 h) _ _
  | pauseCb t => exact idxOK_addStep h _ _
  | runCodeCb code f => exact idxOK_addStep h _ _
  | runMessageCb msg isc => exact idxOK_addStep h _ _

theorem idxOK_runCallbacks (cs : List Callback) {b : Builder} (h : idxOK b) :
    idxOK (runCallbacks b cs) := by
  induction cs generalizing b with
  | nil => exact h
  | cons c rest ih => exact ih (idxOK_runCallback c h)

/-- **C8** — For every sequence of builder callback invocations (any mix of
move, frame/tool, speed/accel/rounding, IO, pause, message steps), the step
indices recorded in the produced step list are exactly `1, 2, 3, …` in
order: strictly increasing by 1 starting at 1, never reused. -/
theorem C8_step_indices (cs : List Callback) :
    (runCallbacks initBuilder cs).steps.map BStep.index =
      List.range' 1 (runCallbacks initBuilder cs).steps.length :=
  (idxOK_runCallbacks cs (show idxOK initBuilder from ⟨rfl, rfl⟩)).2

/-- **C1**, counterexample — `_add_target` with `pose = None` and
`joints = None` does NOT fail and does NOT reject the target: on a fresh
builder it returns the fresh id `"T001"` and appends a target whose
`joints` and `pose` are both null.  (The method has no failure path at
all.)  This refutes the claim that such a call "fails/reports an error and
does not append a target". -/
theorem C1_add_target_null_null_appends :
    (addTarget initBuilder none none none none).1 = "T001" ∧
    (addTarget initBuilder none none none none).2.targets.length = 1 ∧
    (addTarget initBuilder none none none none).2.targets.map BTarget.joints = [none] ∧
    (addTarget initBuilder none none none none).2.targets.map BTarget.pose = [none] :=
  ⟨rfl, rfl, rfl, rfl⟩

/-- **C1**, amended — `_add_target` never fails: for every combination of
`pose` and `joints` (both null, exactly one null, or both present) it
appends exactly one target and returns the fresh sequential id
`"T" ++ zero-padded counter`; the null/null case is silently written like
any other. -/
theorem C1_add_target_total (b : Builder) (pose joints : Option (List ℝ))
    (conf_RLF : Option (List Int)) (name : Option String) :
    (addTarget b pose joints conf_RLF name).1 = "T" ++ pad3 (b.target_counter + 1) ∧
    (addTarget b pose joints conf_RLF name).2.target_counter = b.target_counter + 1 ∧
    ∃ t : BTarget,
      (addTarget b pose joints conf_RLF name).2.targets = b.targets ++ [t] ∧
      t.id = "T" ++ pad3 (b.target_counter + 1) ∧
      t.joints = joints ∧
      t.pose = pose_to_xyzrpw_deg pose ∧
      t.is_joint_target = pose.isNone :=
  ⟨rfl, rfl, _, rfl, rfl, rfl, rfl, rfl⟩

/-- **C5** — A parsed 6-value joint list is treated as radians and
converted to degrees iff every value has absolute magnitude strictly under
7; otherwise it is left unchanged.  In particular
`[0.1, -0.2, 0.3, 0.0, 1.5, -1.5]` is converted and
`[45, -90, 0, 90, 0, 180]` is not. -/
theorem C5_unit_heuristic (vals : List ℝ) (_h6 : vals.length = 6) :
    ((∀ v ∈ vals, |v| < 7) → radHeuristic vals = vals.map rad2deg) ∧
    ((∃ v ∈ vals, 7 ≤ |v|) → radHeuristic vals = vals) ∧
    radHeuristic [0.1, -0.2, 0.3, 0.0, 1.5, -1.5] =
      ([0.1, -0.2, 0.3, 0.0, 1.5, -1.5] : List ℝ).map rad2deg ∧
    radHeuristic [45, -90, 0, 90, 0, 180] = ([45, -90, 0, 90, 0, 180] : List ℝ) := by
  refine ⟨fun h => if_pos h, fun ⟨v, hv, h7⟩ => if_neg ?_, if_pos ?_, if_neg ?_⟩
  · intro hall
    exact absurd (hall v hv) (not_lt.mpr h7)
  · intro v hv
    fin_cases hv <;> rw [abs_lt] <;> constructor <;> norm_num
  · intro hall
    have := hall 45 (by simp)
    rw [abs_lt] at this
    linarith [this.2]

theorem C5_unit_heuristic_witness :
    ([0.1, -0.2, 0.3, 0.0, 1.5, -1.5] : List ℝ).length = 6 ∧
    radHeuristic [0.1, -0.2, 0.3, 0.0, 1.5, -1.5] =
      ([0.1, -0.2, 0.3, 0.0, 1.5, -1.5] : List ℝ).map rad2deg :=
  ⟨by norm_num,
   (C5_unit_heuristic [0.1, -0.2, 0.3, 0.0, 1.5, -1.5] (by norm_num)).2.2.1⟩

/-- **C2**, counterexample — an IR document with zero steps yields zero
`Move` and zero `Set` elements, yet `ruki_para_urp` (the IR-to-archive
path) returns SUCCESS and writes the archive file: it has no
empty-result check, refuting the claim that both archive paths fail with
"no commands found" and write nothing. -/
theorem C2_ruki_para_urp_empty_succeeds :
    (({} : RukiDoc).steps.foldl (urpStepIR ({} : RukiDoc).targets) {}).mc = 0 ∧
    (({} : RukiDoc).steps.foldl (urpStepIR ({} : RukiDoc).targets) {}).ic = 0 ∧
    (ruki_para_urp {} (some ({ urp := [], nome_completo := "UR20e" } : RobotData)) "out").1
      = true ∧
    (ruki_para_urp {} (some ({ urp := [], nome_completo := "UR20e" } : RobotData)) "out").2.2
      = some ⟨"out" ++ "/" ++ "programa" ++ ".urp", []⟩ :=
  ⟨rfl, rfl, rfl, rfl⟩

/-- **C2**, amended — only the parsed-script-to-archive path
(`script_para_urp`) fails on an empty result: with zero move and zero IO
elements it returns failure with the "Nenhum comando encontrado" ("no
commands found") message and writes no file; the IR-to-archive path
(`ruki_para_urp`) instead returns success and writes the archive even when
zero move and zero IO elements are produced. -/
theorem C2_empty_result_amended
    (cmds : List Cmd) (nome : String) (rd : RobotData) (pasta : String)
    (doc : RukiDoc) (rd2 : RobotData) (pasta2 : String)
    (hc : (cmds.foldl urpStepCmd {}).mc = 0 ∧ (cmds.foldl urpStepCmd {}).ic = 0)
    (_hd : (doc.steps.foldl (urpStepIR doc.targets) {}).mc = 0 ∧
      (doc.steps.foldl (urpStepIR doc.targets) {}).ic = 0) :
    script_para_urp cmds nome (some rd) pasta = (false, "Nenhum comando encontrado", none) ∧
    (ruki_para_urp doc (some rd2) pasta2).1 = true ∧
    (ruki_para_urp doc (some rd2) pasta2).2.2 ≠ none := by
  refine ⟨?_, rfl, by simp [ruki_para_urp]⟩
  simp [script_para_urp, hc.1, hc.2]

theorem C2_empty_result_amended_witness :
    ((([] : List Cmd).foldl urpStepCmd {}).mc = 0 ∧
      (([] : List Cmd).foldl urpStepCmd {}).ic = 0) ∧
    ((({} : RukiDoc).steps.foldl (urpStepIR ({} : RukiDoc).targets) {}).mc = 0 ∧
      (({} : RukiDoc).steps.foldl (urpStepIR ({} : RukiDoc).targets) {}).ic = 0) ∧
    script_para_urp [] "p" (some {}) "o" = (false, "Nenhum comando encontrado", none) :=
  ⟨⟨rfl, rfl⟩, ⟨rfl, rfl⟩,
   (C2_empty_result_amended [] "p" {} "o" {} {} "o2" ⟨rfl, rfl⟩ ⟨rfl, rfl⟩).1⟩

theorem findModelo_eq_none (robos : List String) (texto : String) :
    findModelo robos texto = none ↔ ∀ m ∈ robos, wordMatch m texto = false := by
  induction robos with
  | nil => simp [findModelo]
  | cons m0 rest ih =>
      by_cases h : wordMatch m0 texto
      · simp [findModelo, h]
      · simp only [findModelo, h, Bool.false_eq_true, if_false, ih, List.mem_cons]
        constructor
        · rintro hall m' (rfl | hm')
          · exact Bool.eq_false_iff.mpr h
          · exact hall m' hm'
        · intro hall m' hm'
          exact hall m' (Or.inr hm')

theorem findModelo_eq_some (robos : List String) (texto : String) (m : String) :
    findModelo robos texto = some m ↔
      ∃ pre post, robos = pre ++ m :: post ∧ wordMatch m texto = true ∧
        ∀ m' ∈ pre, wordMatch m' texto = false := by
  induction robos with
  | nil =>
      simp only [findModelo]
      constructor
      · intro h; cases h
      · rintro ⟨pre, post, heq, -, -⟩
        exact absurd heq (by simp)
  | cons m0 rest ih =>
      by_cases h : wordMatch m0 texto
      · simp only [findModelo, h, if_true, Option.some_inj]
        constructor
        · rintro rfl
          exact ⟨[], rest, rfl, h, by simp⟩
        · rintro ⟨pre, post, heq, hm, hpre⟩
          cases pre with
          | nil => exact (List.cons_eq_cons.mp heq).1
          | cons p ps =>
              obtain ⟨rfl, -⟩ := List.cons_eq_cons.mp heq
              exact absurd h (by simp [hpre m0 (by simp)])
      · simp only [findModelo, h, Bool.false_eq_true, if_false, ih]
        constructor
        · rintro ⟨pre, post, rfl, hm, hpre⟩
          refine ⟨m0 :: pre, post, rfl, hm, ?_⟩
          intro m' hm'
          rcases List.mem_cons.mp hm' with rfl | hm''
          · exact Bool.eq_false_iff.mpr h
          · exact hpre m' hm''
        · rintro ⟨pre, post, heq, hm, hpre⟩
          cases pre with
          | nil =>
              obtain ⟨rfl, -⟩ := List.cons_eq_cons.mp heq
              exact absurd hm (Bool.eq_false_iff.mp (Bool.eq_false_iff.mpr h))
          | cons p ps =>
              obtain ⟨rfl, rfl⟩ := List.cons_eq_cons.mp heq
              exact ⟨ps, post, rfl, hm, fun m' hm' => hpre m' (List.mem_cons_of_mem _ hm')⟩

theorem movesOf_append (l1 l2 : List UrpElem) :
    movesOf (l1 ++ l2) = movesOf l1 ++ movesOf l2 := by
  simp [movesOf]

theorem setsOf_append (l1 l2 : List UrpElem) :
    setsOf (l1 ++ l2) = setsOf l1 ++ setsOf l2 := by
  simp [setsOf]

theorem urpStepIR_move (ts : List (String × ETarget)) (st : UrpState) (s : RStep)
    (hmv : s.type.getD "" = "MOVE_J" ∨ s.type.getD "" = "MOVE_L") :
    urpStepIR ts st s = { st with
      elems := st.elems ++
        [UrpElem.move (if s.type.getD "" = "MOVE_J" then "MoveJ" else "MoveL")
          (if st.mc = 0 then FeatAttr.referencedName "Joint_0_name"
            else FeatAttr.reference "../../Move/feature")
          ("Waypoint_" ++ toString (st.wp + 1))
          (((lookupTarget ts s.target).joints.getD (List.replicate 6 0)).map deg2rad)]
      wp := st.wp + 1
      mc := st.mc + 1 } := by
  simp only [urpStepIR]
  rw [if_pos hmv]

theorem urpStepIR_io (ts : List (String × ETarget)) (st : UrpState) (s : RStep)
    (hio : s.type.getD "" = "SET_IO") :
    urpStepIR ts st s = { st with
      elems := st.elems ++
        [UrpElem.set
          (if st.ic = 0 then
            FeatAttr.referencedName ("digital_out[" ++ toString (s.io_index.getD 0) ++ "]")
          else FeatAttr.reference "../../Set/pin") s.value]
      ic := st.ic + 1 } := by
  simp only [urpStepIR]
  rw [if_neg (by rw [hio]; decide), if_pos hio]

theorem urpStepIR_other (ts : List (String × ETarget)) (st : UrpState) (s : RStep)
    (hmv : ¬(s.type.getD "" = "MOVE_J" ∨ s.type.getD "" = "MOVE_L"))
    (hio : ¬s.type.getD "" = "SET_IO") :
    urpStepIR ts st s = st := by
  simp only [urpStepIR]
  rw [if_neg hmv, if_neg hio]

theorem foldCmd_movesOf (cmds : List Cmd) :
    ∀ st : UrpState, st.mc = (movesOf st.elems).length →
      movesOf ((cmds.foldl urpStepCmd st).elems) =
        movesOf st.elems ++ featSuffix st.mc (cmdMoves cmds) := by
  induction cmds with
  | nil =>
      intro st h
      simp [cmdMoves, featSuffix, featPattern]
  | cons c rest ih =>
      intro st h
      rw [List.foldl_cons]
      cases c with
      | move tipo joints pose =>
          cases joints with
          | none =>
              have hst : urpStepCmd st (.move tipo none pose) =
                  { st with movel_sem_joints := st.movel_sem_joints + 1 } := rfl
              rw [hst, ih _ (by simpa using h)]
              simp [cmdMoves, List.filter_cons]
          | some js =>
              have hst : urpStepCmd st (.move tipo (some js) pose) = { st with
                  elems := st.elems ++
                    [UrpElem.move tipo
                      (if st.mc = 0 then FeatAttr.referencedName "Joint_0_name"
                        else FeatAttr.reference "../../Move/feature")
                      ("Waypoint_" ++ toString (st.wp + 1)) (js.map deg2rad)]
                  wp := st.wp + 1
                  mc := st.mc + 1 } := rfl
              rw [hst, ih _ (by simp [movesOf_append, movesOf, h]), movesOf_append]
              have hcm : cmdMoves (Cmd.move tipo (some js) pose :: rest) = cmdMoves rest + 1 := by
                simp [cmdMoves, List.filter_cons]
              rw [hcm]
              by_cases hmc : st.mc = 0
              · simp [featSuffix, hmc, featPattern, movesOf]
              · simp [featSuffix, hmc, List.replicate_succ, movesOf]
      | io idx val =>
          have hst : urpStepCmd st (.io idx val) = { st with
              elems := st.elems ++
                [UrpElem.set
                  (if st.ic = 0 then
                    FeatAttr.referencedName ("digital_out[" ++ toString idx ++ "]")
                  else FeatAttr.reference "../../Set/pin") val]
              ic := st.ic + 1 } := rfl
          rw [hst, ih _ (by simp [movesOf_append, movesOf, h]), movesOf_append]
          simp [cmdMoves, List.filter_cons, movesOf]

theorem foldCmd_setsOf (cmds : List Cmd) :
    ∀ st : UrpState, st.ic = (setsOf st.elems).length →
      setsOf ((cmds.foldl urpStepCmd st).elems) =
        setsOf st.elems ++ pinSuffix st.ic (cmdIOIdxs cmds) := by
  induction cmds with
  | nil =>
      intro st h
      simp [cmdIOIdxs, pinSuffix, pinPattern]
  | cons c rest ih =>
      intro st h
      rw [List.foldl_cons]
      cases c with
      | move tipo joints pose =>
          cases joints with
          | none =>
              have hst : urpStepCmd st (.move tipo none pose) =
                  { st with movel_sem_joints := st.movel_sem_joints + 1 } := rfl
              rw [hst, ih _ (by simpa using h)]
              simp [cmdIOIdxs]
          | some js =>
              have hst : urpStepCmd st (.move tipo (some js) pose) = { st with
                  elems := st.elems ++
                    [UrpElem.move tipo
                      (if st.mc = 0 then FeatAttr.referencedName "Joint_0_name"
                        else FeatAttr.reference "../../Move/feature")
                      ("Waypoint_" ++ toString (st.wp + 1)) (js.map deg2rad)]
                  wp := st.wp + 1
                  mc := st.mc + 1 } := rfl
              rw [hst, ih _ (by simp [setsOf_append, setsOf, h]), setsOf_append]
              simp [cmdIOIdxs, setsOf]
      | io idx val =>
          have hst : urpStepCmd st (.io idx val) = { st with
              elems := st.elems ++
                [UrpElem.set
                  (if st.ic = 0 then
                    FeatAttr.referencedName ("digital_out[" ++ toString idx ++ "]")
                  else FeatAttr.reference "../../Set/pin") val]
              ic := st.ic + 1 } := rfl
          rw [hst, ih _ (by simp [setsOf_append, setsOf, h]), setsOf_append]
          have hci : cmdIOIdxs (Cmd.io idx val :: rest) = idx :: cmdIOIdxs rest := by
            simp [cmdIOIdxs]
          rw [hci]
          by_cases hic : st.ic = 0
          · simp [pinSuffix, hic, pinPattern, setsOf]
          · simp [pinSuffix, hic, setsOf]

theorem foldStep_movesOf (ts : List (String × ETarget)) (steps : List RStep) :
    ∀ st : UrpState, st.mc = (movesOf st.elems).length →
      movesOf ((steps.foldl (urpStepIR ts) st).elems) =
        movesOf st.elems ++ featSuffix st.mc (stepMoves steps) := by
  induction steps with
  | nil =>
      intro st h
      simp [stepMoves, featSuffix, featPattern]
  | cons s rest ih =>
      intro st h
      rw [List.foldl_cons]
      by_cases hmv : s.type.getD "" = "MOVE_J" ∨ s.type.getD "" = "MOVE_L"
      · rw [urpStepIR_move ts st s hmv, ih _ (by simp [movesOf_append, movesOf, h]),
          movesOf_append]
        have hsm : stepMoves (s :: rest) = stepMoves rest + 1 := by
          simp [stepMoves, List.filter_cons, hmv]
        rw [hsm]
        by_cases hmc : st.mc = 0
        · simp [featSuffix, hmc, featPattern, movesOf]
        · simp [featSuffix, hmc, List.replicate_succ, movesOf]
      · have hsm : stepMoves (s :: rest) = stepMoves rest := by
          simp [stepMoves, List.filter_cons, hmv]
        by_cases hio : s.type.getD "" = "SET_IO"
        · rw [urpStepIR_io ts st s hio, ih _ (by simp [movesOf_append, movesOf, h]),
            movesOf_append, hsm]
          simp [movesOf]
        · rw [urpStepIR_other ts st s hmv hio, ih _ h, hsm]

theorem foldStep_setsOf (ts : List (String × ETarget)) (steps : List RStep) :
    ∀ st : UrpState, st.ic = (setsOf st.elems).length →
      setsOf ((steps.foldl (urpStepIR ts) st).elems) =
        setsOf st.elems ++ pinSuffix st.ic (stepIOIdxs steps) := by
  induction steps with
  | nil =>
      intro st h
      simp [stepIOIdxs, pinSuffix, pinPattern]
  | cons s rest ih =>
      intro st h
      rw [List.foldl_cons]
      by_cases hmv : s.type.getD "" = "MOVE_J" ∨ s.type.getD "" = "MOVE_L"
      · have hsi : stepIOIdxs (s :: rest) = stepIOIdxs rest := by
          have : ¬s.type.getD "" = "SET_IO" := by
            rcases hmv with h1 | h1 <;> rw [h1] <;> decide
          simp [stepIOIdxs, this]
        rw [urpStepIR_move ts st s hmv, ih _ (by simp [setsOf_append, setsOf, h]),
          setsOf_append, hsi]
        simp [setsOf]
      · by_cases hio : s.type.getD "" = "SET_IO"
        · have hsi : stepIOIdxs (s :: rest) = s.io_index.getD 0 :: stepIOIdxs rest := by
            simp [stepIOIdxs, hio]
          rw [urpStepIR_io ts st s hio, ih _ (by simp [setsOf_append, setsOf, h]),
            setsOf_append, hsi]
          by_cases hic : st.ic = 0
          · simp [pinSuffix, hic, pinPattern, setsOf]
          · simp [pinSuffix, hic, setsOf]
        · have hsi : stepIOIdxs (s :: rest) = stepIOIdxs rest := by
            simp [stepIOIdxs, hio]
          rw [urpStepIR_other ts st s hmv hio, ih _ h, hsi]

/-- **C6** — In every archive document either emitter produces, the `Move`
elements' `feature` attributes read: direct `referencedName="Joint_0_name"`
on the first one, `reference="../../Move/feature"` on every subsequent one;
and the `Set` elements' `pin` attributes read: direct
`referencedName="digital_out[<index of that first IO command>]"` on the
first one, `reference="../../Set/pin"` on every subsequent one — one
first/subsequent alternation per element kind, for every command/step
sequence, on both the parsed-script path and the IR path. -/
theorem C6_first_subsequent_alternation (cmds : List Cmd)
    (ts : List (String × ETarget)) (steps : List RStep) :
    movesOf ((cmds.foldl urpStepCmd {}).elems) = featPattern (cmdMoves cmds) ∧
    setsOf ((cmds.foldl urpStepCmd {}).elems) = pinPattern (cmdIOIdxs cmds) ∧
    movesOf ((steps.foldl (urpStepIR ts) {}).elems) = featPattern (stepMoves steps) ∧
    setsOf ((steps.foldl (urpStepIR ts) {}).elems) = pinPattern (stepIOIdxs steps) := by
  refine ⟨?_, ?_, ?_, ?_⟩
  · simpa [featSuffix] using foldCmd_movesOf cmds {} rfl
  · simpa [pinSuffix] using foldCmd_setsOf cmds {} rfl
  · simpa [featSuffix] using foldStep_movesOf ts steps {} rfl
  · simpa [pinSuffix] using foldStep_setsOf ts steps {} rfl

theorem scriptStepIR_moveJ (ts : List (String × ETarget)) (st : ScriptState) (s : RStep)
    (h : s.type.getD "" = "MOVE_J") :
    scriptStepIR ts st s = { st with
      linhas := st.linhas ++
        [SLine.movej (((lookupTarget ts s.target).joints.getD (List.replicate 6 0)).map deg2rad)]
      mc := st.mc + 1 } := by
  simp only [scriptStepIR]
  rw [if_pos h]

theorem scriptStepIR_moveL_skip (ts : List (String × ETarget)) (st : ScriptState) (s : RStep)
    (h : s.type.getD "" = "MOVE_L")
    (hp : get_cartesian_pose (lookupTarget ts s.target).poseView = none) :
    scriptStepIR ts st s = st := by
  simp only [scriptStepIR]
  rw [if_neg (by rw [h]; decide), if_pos h, hp]

theorem foldCmd_skipped (cmds : List Cmd) :
    ∀ st : UrpState, (cmds.foldl urpStepCmd st).movel_sem_joints =
      st.movel_sem_joints + cmdSkips cmds := by
  induction cmds with
  | nil =>
      intro st
      simp [cmdSkips]
  | cons c rest ih =>
      intro st
      rw [List.foldl_cons]
      cases c with
      | move tipo joints pose =>
          cases joints with
          | none =>
              rw [ih]
              simp [urpStepCmd, cmdSkips, List.filter_cons]
              omega
          | some js =>
              rw [ih]
              simp [urpStepCmd, cmdSkips, List.filter_cons]
      | io idx val =>
          rw [ih]
          simp [urpStepCmd, cmdSkips, List.filter_cons]

/-- **C7** — The partial-data policy is asymmetric per emitter: the
IR-to-script emitter silently skips a MOVE_L step with no resolvable
Cartesian pose (the step transition is the identity: no line, no count)
while still returning success with the counts-only message; the
script-to-archive emitter counts every move lacking joint data in
`movel_sem_joints`, skips them, and — whenever anything at all was emitted
— returns success with the skipped count reported inside the success
message rather than failing. -/
theorem C7_partial_data_asymmetry
    (ts : List (String × ETarget)) (st : ScriptState) (s : RStep)
    (hty : s.type.getD "" = "MOVE_L")
    (hpose : get_cartesian_pose (lookupTarget ts s.target).poseView = none)
    (doc : RukiDoc) (pasta : String)
    (cmds : List Cmd) (nome : String) (rd : RobotData) (pasta2 : String)
    (hskip : 0 < (cmds.foldl urpStepCmd {}).movel_sem_joints)
    (hne : ¬((cmds.foldl urpStepCmd {}).mc = 0 ∧ (cmds.foldl urpStepCmd {}).ic = 0)) :
    scriptStepIR ts st s = st ∧
    (ruki_para_script doc pasta).2.1 = true ∧
    (ruki_para_script doc pasta).2.2.1 =
      "Movimentos: " ++ toString (doc.steps.foldl (scriptStepIR doc.targets) {}).mc ++
        "\nIOs: " ++ toString (doc.steps.foldl (scriptStepIR doc.targets) {}).ic ++
        "\n\nArquivo: " ++ (pasta ++ "/" ++ doc.program_name.getD "programa" ++ ".script") ∧
    (cmds.foldl urpStepCmd {}).movel_sem_joints = cmdSkips cmds ∧
    (script_para_urp cmds nome (some rd) pasta2).1 = true ∧
    (script_para_urp cmds nome (some rd) pasta2).2.1 =
      "Movimentos: " ++ toString (cmds.foldl urpStepCmd {}).mc ++
        "\nIOs: " ++ toString (cmds.foldl urpStepCmd {}).ic ++
        "\n\n⚠ " ++ toString (cmds.foldl urpStepCmd {}).movel_sem_joints ++
        " MoveL ignorados (sem #JOINTS)\nUse .script do RoboDK com output joints+cartesian" ++
        "\n\nArquivo: " ++ (pasta2 ++ "/" ++ nome ++ ".urp") := by
  refine ⟨scriptStepIR_moveL_skip ts st s hty hpose, rfl, rfl,
    by simpa using foldCmd_skipped cmds {}, ?_, ?_⟩
  · simp [script_para_urp, hne]
  · simp [script_para_urp, hne, hskip]

theorem C7_partial_data_asymmetry_witness :
    (({ type := some "MOVE_L" } : RStep).type.getD "" = "MOVE_L" ∧
      get_cartesian_pose
        (lookupTarget [] ({ type := some "MOVE_L" } : RStep).target).poseView = none ∧
      0 < (([Cmd.move "MoveL" none (some [1, 2, 3, 4, 5, 6]), Cmd.io 0 true]).foldl
            urpStepCmd {}).movel_sem_joints ∧
      ¬((([Cmd.move "MoveL" none (some [1, 2, 3, 4, 5, 6]), Cmd.io 0 true]).foldl
            urpStepCmd {}).mc = 0 ∧
        (([Cmd.move "MoveL" none (some [1, 2, 3, 4, 5, 6]), Cmd.io 0 true]).foldl
            urpStepCmd {}).ic = 0)) ∧
    scriptStepIR [] {} { type := some "MOVE_L" } = ({} : ScriptState) := by
  have h := C7_partial_data_asymmetry [] {} { type := some "MOVE_L" } rfl rfl {} "o"
    [Cmd.move "MoveL" none (some [1, 2, 3, 4, 5, 6]), Cmd.io 0 true] "p" {} "o2"
    (by decide) (by decide)
  exact ⟨⟨rfl, rfl, by decide, by decide⟩, h.1⟩

/-- **C10** — In the IR-to-archive emitter, a MOVE_J/MOVE_L step whose
referenced target id is absent from the targets map, or whose target lacks
a joints field (either way `lookupTarget … |>.joints = none`), is still
emitted as a waypoint whose six joint angles are all zero (rendered
`0.000000`) and is counted as a movement (`mc + 1`) rather than skipped or
failed; the IR-to-script emitter does the same for MOVE_J steps. -/
theorem C10_missing_joints_zero_waypoint
    (ts : List (String × ETarget)) (s : RStep) (st : UrpState) (st2 : ScriptState)
    (hmv : s.type.getD "" = "MOVE_J" ∨ s.type.getD "" = "MOVE_L")
    (hj : (lookupTarget ts s.target).joints = none) :
    urpStepIR ts st s = { st with
      elems := st.elems ++
        [UrpElem.move (if s.type.getD "" = "MOVE_J" then "MoveJ" else "MoveL")
          (if st.mc = 0 then FeatAttr.referencedName "Joint_0_name"
            else FeatAttr.reference "../../Move/feature")
          ("Waypoint_" ++ toString (st.wp + 1)) (List.replicate 6 0)]
      wp := st.wp + 1
      mc := st.mc + 1 } ∧
    (s.type.getD "" = "MOVE_J" →
      scriptStepIR ts st2 s = { st2 with
        linhas := st2.linhas ++ [SLine.movej (List.replicate 6 0)]
        mc := st2.mc + 1 }) := by
  have hzero : ((lookupTarget ts s.target).joints.getD (List.replicate 6 0)).map deg2rad
      = List.replicate 6 (0 : ℝ) := by
    rw [hj]
    simp [List.map_replicate, deg2rad]
  constructor
  · rw [urpStepIR_move ts st s hmv, hzero]
  · intro hJ
    rw [scriptStepIR_moveJ ts st2 s hJ, hzero]

theorem C10_missing_joints_zero_waypoint_witness :
    ((({ type := some "MOVE_J" } : RStep).type.getD "" = "MOVE_J" ∨
        ({ type := some "MOVE_J" } : RStep).type.getD "" = "MOVE_L") ∧
      (lookupTarget [] ({ type := some "MOVE_J" } : RStep).target).joints = none) ∧
    urpStepIR [] {} { type := some "MOVE_J" } = ({
      elems := [UrpElem.move "MoveJ" (FeatAttr.referencedName "Joint_0_name")
        ("Waypoint_" ++ toString (0 + 1)) (List.replicate 6 0)]
      wp := 1
      mc := 1 } : UrpState) := by
  have h := C10_missing_joints_zero_waypoint [] { type := some "MOVE_J" } {} {}
    (Or.inl rfl) rfl
  refine ⟨⟨Or.inl rfl, rfl⟩, ?_⟩
  rw [h.1]
  rfl

theorem extractRot_eq_rotvecSpec (R : Rot3) : extractRot R = rotvecSpec R := rfl

/-- **C4** — For every target carrying a 4×4 pose matrix `M`,
`get_cartesian_pose` returns position `(M[0][3]/1000, M[1][3]/1000,
M[2][3]/1000)` and the rotation vector computed from
`angle = acos(clamp((trace R − 1)/2, −1, 1))` by the three branches of
`rotvecSpec` (exact zero under 1e-10; the 180° square-root/sign-flip
singularity branch; otherwise `k·(R21−R12, R02−R20, R10−R01)` with
`k = angle/(2 sin angle)`). -/
theorem C4_get_cartesian_pose_spec (t : PoseTarget) (m : List (List ℝ))
    (hm : t.pose_matrix = some m) (h4 : m.length = 4)
    (_hr : ∀ r ∈ m, r.length = 4) :
    get_cartesian_pose t =
      some [mval m 0 3 / 1000, mval m 1 3 / 1000, mval m 2 3 / 1000,
        (rotvecSpec (rotOf m)).1, (rotvecSpec (rotOf m)).2.1, (rotvecSpec (rotOf m)).2.2] := by
  obtain ⟨pm, pp⟩ := t
  simp only at hm
  subst hm
  have hne : m ≠ [] := by
    intro h
    rw [h] at h4
    exact absurd h4 (by decide)
  simp only [get_cartesian_pose]
  rw [if_pos ⟨hne, h4⟩, extractRot_eq_rotvecSpec]

theorem C4_get_cartesian_pose_spec_witness :
    (({ pose_matrix := some [[1, 0, 0, 0], [0, 1, 0, 0], [0, 0, 1, 0], [0, 0, 0, 1]] } :
        PoseTarget).pose_matrix =
      some [[1, 0, 0, 0], [0, 1, 0, 0], [0, 0, 1, 0], [0, 0, 0, 1]] ∧
      ([[1, 0, 0, 0], [0, 1, 0, 0], [0, 0, 1, 0], [0, 0, 0, 1]] :
        List (List ℝ)).length = 4) ∧
    get_cartesian_pose
        { pose_matrix := some [[1, 0, 0, 0], [0, 1, 0, 0], [0, 0, 1, 0], [0, 0, 0, 1]] } =
      some [mval [[1, 0, 0, 0], [0, 1, 0, 0], [0, 0, 1, 0], [0, 0, 0, 1]] 0 3 / 1000,
        mval [[1, 0, 0, 0], [0, 1, 0, 0], [0, 0, 1, 0], [0, 0, 0, 1]] 1 3 / 1000,
        mval [[1, 0, 0, 0], [0, 1, 0, 0], [0, 0, 1, 0], [0, 0, 0, 1]] 2 3 / 1000,
        (rotvecSpec (rotOf [[1, 0, 0, 0], [0, 1, 0, 0], [0, 0, 1, 0], [0, 0, 0, 1]])).1,
        (rotvecSpec (rotOf [[1, 0, 0, 0], [0, 1, 0, 0], [0, 0, 1, 0], [0, 0, 0, 1]])).2.1,
        (rotvecSpec (rotOf [[1, 0, 0, 0], [0, 1, 0, 0], [0, 0, 1, 0], [0, 0, 0, 1]])).2.2] :=
  ⟨⟨rfl, rfl⟩,
   C4_get_cartesian_pose_spec _ _ rfl rfl
     (by intro r hr; fin_cases hr <;> rfl)⟩

/-- **C9** — Model detection on script text is a case-insensitive
whole-word search of each catalog key over the first 100 lines: the result
is the first key (in catalog declaration order) that matches, it is `none`
exactly when no key matches anywhere in that text, and in particular a
text containing `UR20` as a whole word with catalog key `"UR20"` yields
`"UR20"` while a text without any catalog key yields `none`. -/
theorem C9_model_detection :
    (∀ robos linhas, detectar_modelo_text robos linhas = none ↔
      ∀ m ∈ robos, wordMatch m (String.intercalate "\n" (linhas.take 100)) = false) ∧
    (∀ robos linhas m, detectar_modelo_text robos linhas = some m ↔
      ∃ pre post, robos = pre ++ m :: post ∧
        wordMatch m (String.intercalate "\n" (linhas.take 100)) = true ∧
        ∀ m' ∈ pre, wordMatch m' (String.intercalate "\n" (linhas.take 100)) = false) ∧
    detectar_modelo_text ["UR20"] ["def prog():", "  # Robot: UR20 settings"] = some "UR20" ∧
    detectar_modelo_text ["UR20"] ["def prog():", "  # no model here"] = none :=
  ⟨fun robos linhas => findModelo_eq_none robos _,
   fun robos linhas m => findModelo_eq_some robos _ m,
   by decide, by decide⟩

theorem clamp_of_mem {x : ℝ} (h1 : -1 ≤ x) (h2 : x ≤ 1) : max (-1) (min 1 x) = x := by
  rw [min_eq_right h2, max_eq_right h1]

theorem rodrigues_trace (kx ky kz θ : ℝ) (hk : kx ^ 2 + ky ^ 2 + kz ^ 2 = 1) :
    (rodrigues kx ky kz θ).r00 + (rodrigues kx ky kz θ).r11 + (rodrigues kx ky kz θ).r22 =
      1 + 2 * Real.cos θ := by
  simp only [rodrigues]
  linear_combination (1 - Real.cos θ) * hk

theorem extract_angle_eq {R : Rot3} {θ : ℝ}
    (htr : R.r00 + R.r11 + R.r22 = 1 + 2 * Real.cos θ) (h0 : 0 ≤ θ) (hπ : θ ≤ Real.pi) :
    Real.arccos (max (-1) (min 1 ((R.r00 + R.r11 + R.r22 - 1) / 2))) = θ := by
  have h1 : (R.r00 + R.r11 + R.r22 - 1) / 2 = Real.cos θ := by rw [htr]; ring
  rw [h1, clamp_of_mem (Real.neg_one_le_cos θ) (Real.cos_le_one θ), Real.arccos_cos h0 hπ]

theorem extractRot_tiny (R : Rot3) (θ : ℝ)
    (htr : R.r00 + R.r11 + R.r22 = 1 + 2 * Real.cos θ)
    (h0 : 0 ≤ θ) (hπ : θ ≤ Real.pi) (hlow : |θ| < 1e-10) :
    extractRot R = (0, 0, 0) := by
  simp only [extractRot]
  rw [extract_angle_eq htr h0 hπ, if_pos hlow]

theorem extractRot_singular (R : Rot3) (θ : ℝ)
    (htr : R.r00 + R.r11 + R.r22 = 1 + 2 * Real.cos θ)
    (h0 : 0 ≤ θ) (hπ : θ ≤ Real.pi)
    (hlow : ¬|θ| < 1e-10) (hhigh : |θ - Real.pi| < 1e-10) :
    extractRot R =
      (Real.sqrt ((R.r00 + 1) / 2) * Real.pi,
       if R.r01 < 0 then -(Real.sqrt ((R.r11 + 1) / 2) * Real.pi)
         else Real.sqrt ((R.r11 + 1) / 2) * Real.pi,
       if R.r02 < 0 then -(Real.sqrt ((R.r22 + 1) / 2) * Real.pi)
         else Real.sqrt ((R.r22 + 1) / 2) * Real.pi) := by
  simp only [extractRot]
  rw [extract_angle_eq htr h0 hπ, if_neg hlow, if_pos hhigh]

theorem extractRot_main (R : Rot3) (θ : ℝ)
    (htr : R.r00 + R.r11 + R.r22 = 1 + 2 * Real.cos θ)
    (h0 : 0 ≤ θ) (hπ : θ ≤ Real.pi)
    (hlow : ¬|θ| < 1e-10) (hhigh : ¬|θ - Real.pi| < 1e-10) :
    extractRot R =
      (θ / (2 * Real.sin θ) * (R.r21 - R.r12),
       θ / (2 * Real.sin θ) * (R.r02 - R.r20),
       θ / (2 * Real.sin θ) * (R.r10 - R.r01)) := by
  simp only [extractRot]
  rw [extract_angle_eq htr h0 hπ, if_neg hlow, if_neg hhigh]

theorem extract_on_rodrigues_main (kx ky kz θ : ℝ) (hk : kx ^ 2 + ky ^ 2 + kz ^ 2 = 1)
    (h0 : 0 < θ) (hπ : θ < Real.pi)
    (hlow : ¬|θ| < 1e-10) (hhigh : ¬|θ - Real.pi| < 1e-10) :
    extractRot (rodrigues kx ky kz θ) = (θ * kx, θ * ky, θ * kz) := by
  have hs : Real.sin θ ≠ 0 := ne_of_gt (Real.sin_pos_of_pos_of_lt_pi h0 hπ)
  rw [extractRot_main _ θ (rodrigues_trace kx ky kz θ hk) h0.le hπ.le hlow hhigh]
  simp only [rodrigues, Prod.mk.injEq]
  refine ⟨?_, ?_, ?_⟩ <;> (field_simp; try ring)

theorem ur_rot_of_scaled (kx ky kz θ : ℝ) (hk : kx ^ 2 + ky ^ 2 + kz ^ 2 = 1)
    (h0 : 0 < θ) (hbig : ¬θ < 1e-10) :
    ur_rot_of_rotvec (θ * kx) (θ * ky) (θ * kz) = rodrigues kx ky kz θ := by
  have hne : θ ≠ 0 := ne_of_gt h0
  have hsum : θ * kx * (θ * kx) + θ * ky * (θ * ky) + θ * kz * (θ * kz) = θ ^ 2 := by
    linear_combination θ ^ 2 * hk
  simp only [ur_rot_of_rotvec]
  rw [hsum, Real.sqrt_sq h0.le, if_neg hbig]
  congr 1 <;> (field_simp; try ring)

theorem Rot3.close_refl (A : Rot3) {eps : ℝ} (h : 0 ≤ eps) : Rot3.close A A eps := by
  unfold Rot3.close
  simp [h]


theorem abs_le_one_of_sq_le_one {a : ℝ} (h : a ^ 2 ≤ 1) : |a| ≤ 1 := by
  nlinarith [sq_abs a, abs_nonneg a]

theorem abs_sub_le_abs_add_abs (a b : ℝ) : |a - b| ≤ |a| + |b| := by
  calc |a - b| = |a + -b| := by rw [sub_eq_add_neg]
  _ ≤ |a| + |-b| := abs_add a (-b)
  _ = |a| + |b| := by rw [abs_neg]

theorem abs_mul_le_one {a b : ℝ} (ha : |a| ≤ 1) (hb : |b| ≤ 1) : |a * b| ≤ 1 := by
  rw [abs_mul]
  exact mul_le_one₀ ha (abs_nonneg b) hb

theorem abs_mul_le_right {a v : ℝ} (ha : |a| ≤ 1) (hv : 0 ≤ v) : |a * v| ≤ v := by
  rw [abs_mul, abs_of_nonneg hv]
  exact mul_le_of_le_one_left hv ha

theorem entry_small {a b c v s : ℝ} (hab : |a * b| ≤ 1) (hc : |c| ≤ 1) (hv0 : 0 ≤ v)
    (hvB : v ≤ 1e-6 / 2) (hsB : |s| ≤ 1e-6 / 2) :
    |a * b * v - c * s| ≤ 1e-6 ∧ |a * b * v + c * s| ≤ 1e-6 := by
  have h1 : |a * b * v| ≤ v := abs_mul_le_right hab hv0
  have h2 : |c * s| ≤ |s| := by
    rw [abs_mul]
    exact mul_le_of_le_one_left (abs_nonneg _) hc
  constructor
  · calc |a * b * v - c * s| ≤ |a * b * v| + |c * s| := abs_sub_le_abs_add_abs _ _
    _ ≤ v + |s| := add_le_add h1 h2
    _ ≤ 1e-6 := by linarith
  · calc |a * b * v + c * s| ≤ |a * b * v| + |c * s| := abs_add _ _
    _ ≤ v + |s| := add_le_add h1 h2
    _ ≤ 1e-6 := by linarith

theorem diag_small {a v : ℝ} (ha : |a| ≤ 1) (hv0 : 0 ≤ v) (hvB : v ≤ 1e-6 / 2) :
    |(1 - a * a) * v| ≤ 1e-6 := by
  have h1 : |1 - a * a| ≤ 1 := by
    rw [abs_le]
    constructor <;> nlinarith [sq_abs a, abs_nonneg a]
  calc |(1 - a * a) * v| ≤ v := abs_mul_le_right h1 hv0
  _ ≤ 1e-6 := by linarith

theorem close_one_rodrigues (kx ky kz θ : ℝ) (hk : kx ^ 2 + ky ^ 2 + kz ^ 2 = 1)
    (h0 : 0 < θ) (hθ : θ < 1e-10) :
    Rot3.close Rot3.one (rodrigues kx ky kz θ) 1e-6 := by
  have hv0 : 0 ≤ 1 - Real.cos θ := by linarith [Real.cos_le_one θ]
  have hv : 1 - Real.cos θ ≤ θ ^ 2 / 2 := by linarith [@Real.one_sub_sq_div_two_le_cos θ]
  have hs : |Real.sin θ| ≤ θ := le_trans Real.abs_sin_le_abs (le_of_eq (abs_of_pos h0))
  have hkx := abs_le_one_of_sq_le_one (show kx ^ 2 ≤ 1 by nlinarith [sq_nonneg ky, sq_nonneg kz])
  have hky := abs_le_one_of_sq_le_one (show ky ^ 2 ≤ 1 by nlinarith [sq_nonneg kx, sq_nonneg kz])
  have hkz := abs_le_one_of_sq_le_one (show kz ^ 2 ≤ 1 by nlinarith [sq_nonneg kx, sq_nonneg ky])
  have hvB : 1 - Real.cos θ ≤ 1e-6 / 2 := by nlinarith
  have hsB : |Real.sin θ| ≤ 1e-6 / 2 := by linarith
  simp only [Rot3.close, Rot3.one, rodrigues]
  refine ⟨?_, ?_, ?_, ?_, ?_, ?_, ?_, ?_, ?_⟩
  · rw [show (1 : ℝ) - (kx * kx * (1 - Real.cos θ) + Real.cos θ) =
      (1 - kx * kx) * (1 - Real.cos θ) from by ring]
    exact diag_small hkx hv0 hvB
  · rw [zero_sub, abs_neg]
    exact (entry_small (abs_mul_le_one hkx hky) hkz hv0 hvB hsB).1
  · rw [zero_sub, abs_neg]
    exact (entry_small (abs_mul_le_one hkx hkz) hky hv0 hvB hsB).2
  · rw [zero_sub, abs_neg]
    exact (entry_small (abs_mul_le_one hkx hky) hkz hv0 hvB hsB).2
  · rw [show (1 : ℝ) - (ky * ky * (1 - Real.cos θ) + Real.cos θ) =
      (1 - ky * ky) * (1 - Real.cos θ) from by ring]
    exact diag_small hky hv0 hvB
  · rw [zero_sub, abs_neg]
    exact (entry_small (abs_mul_le_one hky hkz) hkx hv0 hvB hsB).1
  · rw [zero_sub, abs_neg]
    exact (entry_small (abs_mul_le_one hkx hkz) hky hv0 hvB hsB).1
  · rw [zero_sub, abs_neg]
    exact (entry_small (abs_mul_le_one hky hkz) hkx hv0 hvB hsB).2
  · rw [show (1 : ℝ) - (kz * kz * (1 - Real.cos θ) + Real.cos θ) =
      (1 - kz * kz) * (1 - Real.cos θ) from by ring]
    exact diag_small hkz hv0 hvB

/-- **C3**, amended — for every unit axis `(kx, ky, kz)` and rotation angle
`θ` strictly between 0 and π that is at least 1e-10 below π (outside the
180° singular branch), composing the axis-angle extraction with the
Rodrigues reconstruction reproduces the rotation matrix within 1e-6 in
every entry (exactly, except for angles under the 1e-10 zero threshold,
where the reconstruction is the identity and every entry differs by at
most ~θ). -/
theorem C3_roundtrip_amended (kx ky kz θ : ℝ) (hk : kx ^ 2 + ky ^ 2 + kz ^ 2 = 1)
    (h0 : 0 < θ) (hπ : θ < Real.pi) (hfar : θ ≤ Real.pi - 1e-10) :
    Rot3.close (reconRot (rodrigues kx ky kz θ)) (rodrigues kx ky kz θ) 1e-6 := by
  by_cases htiny : θ < 1e-10
  · have hext : extractRot (rodrigues kx ky kz θ) = (0, 0, 0) :=
      extractRot_tiny _ θ (rodrigues_trace kx ky kz θ hk) h0.le hπ.le (by rwa [abs_of_pos h0])
    have hrec : reconRot (rodrigues kx ky kz θ) = Rot3.one := by
      simp only [reconRot, hext, ur_rot_of_rotvec]
      rw [if_pos]
      norm_num [Real.sqrt_zero]
    rw [hrec]
    exact close_one_rodrigues kx ky kz θ hk h0 htiny
  · have hlow : ¬|θ| < 1e-10 := by rwa [abs_of_pos h0]
    have hhigh : ¬|θ - Real.pi| < 1e-10 := by
      rw [abs_of_neg (by linarith : θ - Real.pi < 0)]
      push_neg
      linarith
    have hext := extract_on_rodrigues_main kx ky kz θ hk h0 hπ hlow hhigh
    have hrec : reconRot (rodrigues kx ky kz θ) = rodrigues kx ky kz θ := by
      simp only [reconRot, hext]
      exact ur_rot_of_scaled kx ky kz θ hk h0 htiny
    rw [hrec]
    exact Rot3.close_refl _ (by norm_num)

theorem cos_pi_add' (x : ℝ) : Real.cos (Real.pi + x) = -Real.cos x := by
  rw [Real.cos_add, Real.cos_pi, Real.sin_pi]
  ring

theorem sin_pi_add' (x : ℝ) : Real.sin (Real.pi + x) = -Real.sin x := by
  rw [Real.sin_add, Real.sin_pi, Real.cos_pi]
  ring

set_option maxHeartbeats 1000000 in
theorem recon_r12_lb (c r1 r2 : ℝ) (hc99 : (0.99 : ℝ) ≤ c) (hcle : c ≤ 1)
    (hr10 : 0 ≤ r1) (hr1sq : r1 * r1 = (1 - c) / 2)
    (_hr20 : 0 ≤ r2) (hr2sq : r2 * r2 = (3 - c) / 4) :
    (0.9 : ℝ) ≤ (ur_rot_of_rotvec (r1 * Real.pi) (r2 * Real.pi) (r2 * Real.pi)).r12 := by
  have hpi_gt : (3.141592 : ℝ) < Real.pi := Real.pi_gt_3141592
  have hpi_lt : Real.pi < 3.15 := Real.pi_lt_315
  have hpi0 : (0 : ℝ) < Real.pi := Real.pi_pos
  have h2c0 : (0 : ℝ) ≤ 2 - c := by linarith
  have hw0 : 0 ≤ Real.sqrt (2 - c) := Real.sqrt_nonneg _
  have hwsq : Real.sqrt (2 - c) * Real.sqrt (2 - c) = 2 - c := Real.mul_self_sqrt h2c0
  have hw1 : 1 ≤ Real.sqrt (2 - c) := by nlinarith
  have hw2 : Real.sqrt (2 - c) ≤ 1.005 := by
    nlinarith [sq_nonneg (Real.sqrt (2 - c) - 1.005)]
  have hsum : r1 * Real.pi * (r1 * Real.pi) + r2 * Real.pi * (r2 * Real.pi) +
      r2 * Real.pi * (r2 * Real.pi) = (2 - c) * Real.pi ^ 2 := by
    have e1 : r1 * Real.pi * (r1 * Real.pi) = r1 * r1 * Real.pi ^ 2 := by ring
    have e2 : r2 * Real.pi * (r2 * Real.pi) = r2 * r2 * Real.pi ^ 2 := by ring
    rw [e1, e2, hr1sq, hr2sq]
    ring
  have hnorm : Real.sqrt ((2 - c) * Real.pi ^ 2) = Real.pi * Real.sqrt (2 - c) := by
    rw [Real.sqrt_mul h2c0, Real.sqrt_sq hpi0.le]
    ring
  have hπw_lb : (3.141592 : ℝ) ≤ Real.pi * Real.sqrt (2 - c) := by nlinarith
  have hπw_pos : (0 : ℝ) < Real.pi * Real.sqrt (2 - c) := by linarith
  have hrec : ur_rot_of_rotvec (r1 * Real.pi) (r2 * Real.pi) (r2 * Real.pi) =
      rodrigues (r1 * Real.pi / (Real.pi * Real.sqrt (2 - c)))
        (r2 * Real.pi / (Real.pi * Real.sqrt (2 - c)))
        (r2 * Real.pi / (Real.pi * Real.sqrt (2 - c))) (Real.pi * Real.sqrt (2 - c)) := by
    simp only [ur_rot_of_rotvec]
    rw [hsum, hnorm, if_neg (by push_neg; linarith)]
  rw [hrec]
  clear hrec
  simp only [rodrigues]
  have hkx0 : 0 ≤ r1 * Real.pi / (Real.pi * Real.sqrt (2 - c)) := by positivity
  have hr1B : r1 ≤ 0.08 := by nlinarith [sq_nonneg (r1 - 0.08)]
  have hky'sq : r2 * Real.pi / (Real.pi * Real.sqrt (2 - c)) *
      (r2 * Real.pi / (Real.pi * Real.sqrt (2 - c))) = (3 - c) / (4 * (2 - c)) := by
    rw [div_mul_div_comm, div_eq_div_iff (by positivity) (by nlinarith)]
    linear_combination (4 * (2 - c) * Real.pi ^ 2) * hr2sq - ((3 - c) * Real.pi ^ 2) * hwsq
  have hδ0 : 0 ≤ Real.pi * Real.sqrt (2 - c) - Real.pi := by nlinarith
  have hδB : Real.pi * Real.sqrt (2 - c) - Real.pi ≤ 0.016 := by nlinarith
  have hcosPW := cos_pi_add' (Real.pi * Real.sqrt (2 - c) - Real.pi)
  rw [show Real.pi + (Real.pi * Real.sqrt (2 - c) - Real.pi) =
    Real.pi * Real.sqrt (2 - c) from by ring] at hcosPW
  have hsinPW := sin_pi_add' (Real.pi * Real.sqrt (2 - c) - Real.pi)
  rw [show Real.pi + (Real.pi * Real.sqrt (2 - c) - Real.pi) =
    Real.pi * Real.sqrt (2 - c) from by ring] at hsinPW
  have hcosδ : (0.99 : ℝ) ≤ Real.cos (Real.pi * Real.sqrt (2 - c) - Real.pi) := by
    have h := @Real.one_sub_sq_div_two_le_cos (Real.pi * Real.sqrt (2 - c) - Real.pi)
    nlinarith
  have hsinδ0 : 0 ≤ Real.sin (Real.pi * Real.sqrt (2 - c) - Real.pi) :=
    Real.sin_nonneg_of_nonneg_of_le_pi hδ0 (by linarith)
  have hq_lb : (0.49 : ℝ) ≤ r2 * Real.pi / (Real.pi * Real.sqrt (2 - c)) *
      (r2 * Real.pi / (Real.pi * Real.sqrt (2 - c))) := by
    rw [hky'sq, le_div_iff (by nlinarith)]
    linarith
  have hv'_lb : (1.99 : ℝ) ≤ 1 - Real.cos (Real.pi * Real.sqrt (2 - c)) := by
    rw [hcosPW]
    linarith
  have hkxB : r1 * Real.pi / (Real.pi * Real.sqrt (2 - c)) ≤ 0.1 := by
    rw [div_le_iff hπw_pos]
    nlinarith
  rw [hsinPW]
  nlinarith [mul_le_mul hq_lb hv'_lb (by norm_num) (by linarith [hq_lb]),
    mul_nonneg hkx0 hsinδ0]

set_option maxHeartbeats 1000000 in
theorem singular_cx (u e : ℝ) (hu : u * u = 1 / 2) (hupos : 0 < u)
    (he0 : 0 < e) (heB : e ≤ 1e-11) :
    ¬ Rot3.close (reconRot (rodrigues 0 u (-u) (Real.pi - e)))
        (rodrigues 0 u (-u) (Real.pi - e)) 1e-6 := by
  have hpi_gt : (3.141592 : ℝ) < Real.pi := Real.pi_gt_3141592
  have hθ0 : (0 : ℝ) < Real.pi - e := by linarith
  have hθπ : Real.pi - e < Real.pi := by linarith
  have hcosθ : Real.cos (Real.pi - e) = -Real.cos e := Real.cos_pi_sub e
  have hsinθ : Real.sin (Real.pi - e) = Real.sin e := Real.sin_pi_sub e
  have hsin_pos : 0 < Real.sin e := Real.sin_pos_of_pos_of_lt_pi he0 (by linarith)
  have hcos_le : Real.cos e ≤ 1 := Real.cos_le_one e
  have hc99 : (0.99 : ℝ) ≤ Real.cos e := by
    have h := @Real.one_sub_sq_div_two_le_cos e
    nlinarith
  have hk : (0 : ℝ) ^ 2 + u ^ 2 + (-u) ^ 2 = 1 := by linear_combination 2 * hu
  have hA01 : (rodrigues 0 u (-u) (Real.pi - e)).r01 = u * Real.sin e := by
    simp only [rodrigues]
    rw [hsinθ]
    ring
  have hA02 : (rodrigues 0 u (-u) (Real.pi - e)).r02 = u * Real.sin e := by
    simp only [rodrigues]
    rw [hsinθ]
    ring
  have hA00 : (rodrigues 0 u (-u) (Real.pi - e)).r00 = -Real.cos e := by
    simp only [rodrigues]
    rw [hcosθ]
    ring
  have hA11 : (rodrigues 0 u (-u) (Real.pi - e)).r11 = (1 - Real.cos e) / 2 := by
    simp only [rodrigues]
    rw [hcosθ]
    linear_combination (1 + Real.cos e) * hu
  have hA22 : (rodrigues 0 u (-u) (Real.pi - e)).r22 = (1 - Real.cos e) / 2 := by
    simp only [rodrigues]
    rw [hcosθ]
    linear_combination (1 + Real.cos e) * hu
  have hA12 : (rodrigues 0 u (-u) (Real.pi - e)).r12 = -((1 + Real.cos e) / 2) := by
    simp only [rodrigues]
    rw [hcosθ]
    linear_combination (-(1 + Real.cos e)) * hu
  have htr := rodrigues_trace 0 u (-u) (Real.pi - e) hk
  have hlow : ¬|Real.pi - e| < 1e-10 := by
    rw [abs_of_pos hθ0]
    push_neg
    linarith
  have hhigh : |Real.pi - e - Real.pi| < 1e-10 := by
    rw [show Real.pi - e - Real.pi = -e from by ring, abs_neg, abs_of_pos he0]
    linarith
  have hext := extractRot_singular _ (Real.pi - e) htr hθ0.le hθπ.le hlow hhigh
  rw [if_neg (by rw [hA01]; push_neg; exact mul_nonneg hupos.le hsin_pos.le),
      if_neg (by rw [hA02]; push_neg; exact mul_nonneg hupos.le hsin_pos.le),
      hA00, hA11, hA22,
      show (-Real.cos e + 1) / 2 = (1 - Real.cos e) / 2 from by ring,
      show ((1 - Real.cos e) / 2 + 1) / 2 = (3 - Real.cos e) / 4 from by ring] at hext
  have h1c0 : (0 : ℝ) ≤ (1 - Real.cos e) / 2 := by linarith
  have h3c0 : (0 : ℝ) ≤ (3 - Real.cos e) / 4 := by linarith
  have hlb := recon_r12_lb (Real.cos e) (Real.sqrt ((1 - Real.cos e) / 2))
    (Real.sqrt ((3 - Real.cos e) / 4)) hc99 hcos_le (Real.sqrt_nonneg _)
    (Real.mul_self_sqrt h1c0) (Real.sqrt_nonneg _) (Real.mul_self_sqrt h3c0)
  have hN : reconRot (rodrigues 0 u (-u) (Real.pi - e)) =
      ur_rot_of_rotvec (Real.sqrt ((1 - Real.cos e) / 2) * Real.pi)
        (Real.sqrt ((3 - Real.cos e) / 4) * Real.pi)
        (Real.sqrt ((3 - Real.cos e) / 4) * Real.pi) := by
    simp only [reconRot]
    rw [hext]
  intro hcl
  have h6 := hcl.2.2.2.2.2.1
  rw [hN, hA12] at h6
  have habs := le_abs_self
    ((ur_rot_of_rotvec (Real.sqrt ((1 - Real.cos e) / 2) * Real.pi)
        (Real.sqrt ((3 - Real.cos e) / 4) * Real.pi)
        (Real.sqrt ((3 - Real.cos e) / 4) * Real.pi)).r12 - -((1 + Real.cos e) / 2))
  linarith


/-- **C3**, counterexample — the claim fails inside the 180° singular
branch, which the claim's "strictly between 0 and π" range does not
exclude: for the unit axis `(0, 1/√2, −1/√2)` and angle `π − 1e-11`
(strictly between 0 and π), the extraction's square-root/sign-flip
recovery loses the relative sign of the y/z axis components (both
off-diagonal sign witnesses `R01`, `R02` are positive), so the
reconstruction returns a rotation about `(0, 1/√2, +1/√2)` instead: its
`r12` entry is ≥ 0.9 while the original's is ≤ −0.995, an entrywise error
around 1.9, far above 1e-6. -/
theorem C3_roundtrip_counterexample :
    ((0 : ℝ) ^ 2 + (1 / Real.sqrt 2) ^ 2 + (-(1 / Real.sqrt 2)) ^ 2 = 1 ∧
      0 < Real.pi - 1e-11 ∧ Real.pi - 1e-11 < Real.pi) ∧
    ¬ Rot3.close
        (reconRot (rodrigues 0 (1 / Real.sqrt 2) (-(1 / Real.sqrt 2)) (Real.pi - 1e-11)))
        (rodrigues 0 (1 / Real.sqrt 2) (-(1 / Real.sqrt 2)) (Real.pi - 1e-11)) 1e-6 := by
  have hu : 1 / Real.sqrt 2 * (1 / Real.sqrt 2) = 1 / 2 := by
    rw [div_mul_div_comm, one_mul, Real.mul_self_sqrt (by norm_num : (0 : ℝ) ≤ 2)]
  have hupos : (0 : ℝ) < 1 / Real.sqrt 2 := by positivity
  refine ⟨⟨by linear_combination 2 * hu, ?_, ?_⟩,
    singular_cx _ _ hu hupos (by norm_num) (by norm_num)⟩
  · linarith [Real.pi_gt_3141592]
  · have : (0 : ℝ) < 1e-11 := by norm_num
    linarith

theorem C3_roundtrip_amended_witness :
    ((1 : ℝ) ^ 2 + 0 ^ 2 + 0 ^ 2 = 1 ∧ (0 : ℝ) < 1 ∧ (1 : ℝ) < Real.pi ∧
      (1 : ℝ) ≤ Real.pi - 1e-10) ∧
    Rot3.close (reconRot (rodrigues 1 0 0 1)) (rodrigues 1 0 0 1) 1e-6 :=
  ⟨⟨by norm_num, by norm_num, by linarith [Real.pi_gt_3141592],
    by linarith [Real.pi_gt_3141592]⟩,
   C3_roundtrip_amended 1 0 0 1 (by norm_num) (by norm_num)
     (by linarith [Real.pi_gt_3141592]) (by linarith [Real.pi_gt_3141592])⟩

end Ruki
